import Mathlib

/-!
GPS time synchronisation of the STC DIY clock (src/src/main.c).

A shallow embedding of the NMEA `$GPZDA` decoder (`processUartData`), the
calendar arithmetic (`get_days`, `set_days`), the timezone adjustment
(`adjust_timezone`) and the reconciliation with the RTC
(`checkDateNeedAdjust`), followed by theorems about them.

Conventions.  `uint8_t` and `uint16_t` values are natural numbers, reduced
modulo `2^8` or `2^16` wherever the C arithmetic can leave the range; `int8_t`
values are integers, wrapped by `toInt8`.  The received byte `data` is a
natural number below 256.  Character constants are written as their codes
(`'$'` is 36, `'*'` is 42, `','` is 44, `'.'` is 46, `'0'` is 48, `'9'` is 57,
`'A'` is 65, `'F'` is 70, and so on).
-/

namespace StcDiyClock

/-! ## Data model -/

/-- The `enum nmea_state` of main.c.  The variable `zda_state` is only ever
assigned one of these enumerators (through `set_zda_state`). -/
inductive nmea_state where
  | NM_UNKNOWN
  | NM_HEADER
  | NM_ZDATIME
  | NM_ZDAFRACRIONSECONDS
  | NM_ZDADAY
  | NM_ZDAMONTH
  | NM_ZDAYEAR
  | NM_ZDATZHOUR
  | NM_ZDATZMINUTE
  | NM_ZDACHECKSUM
  deriving DecidableEq, Repr

/-- The register addresses `DS_ADDR_*` that index `gpstm_table` and
`rtc_table`.  Their numeric values are declared in ds1302.h, which is not
among the sources; main.c only uses them as (distinct) names of table
entries, so they are kept as names here. -/
inductive DsAddr where
  | DS_ADDR_SECONDS
  | DS_ADDR_MINUTES
  | DS_ADDR_HOUR
  | DS_ADDR_DAY
  | DS_ADDR_MONTH
  | DS_ADDR_WEEKDAY
  | DS_ADDR_YEAR
  deriving DecidableEq, Repr

/-- A time table (`gpstm_table`, `rtc_table`): one byte per `DS_ADDR_*`
entry.  The eighth byte of `gpstm_table[8]` is never addressed by main.c and
is left out. -/
structure Table where
  seconds : Nat
  minutes : Nat
  hour : Nat
  day : Nat
  month : Nat
  weekday : Nat
  year : Nat
  deriving DecidableEq, Repr

/-- The table entry `t[a]`. -/
def Table.get (t : Table) : DsAddr → Nat
  | .DS_ADDR_SECONDS => t.seconds
  | .DS_ADDR_MINUTES => t.minutes
  | .DS_ADDR_HOUR => t.hour
  | .DS_ADDR_DAY => t.day
  | .DS_ADDR_MONTH => t.month
  | .DS_ADDR_WEEKDAY => t.weekday
  | .DS_ADDR_YEAR => t.year

/-- The assignment `t[a] = v`. -/
def Table.set (t : Table) (a : DsAddr) (v : Nat) : Table :=
  match a with
  | .DS_ADDR_SECONDS => { t with seconds := v }
  | .DS_ADDR_MINUTES => { t with minutes := v }
  | .DS_ADDR_HOUR => { t with hour := v }
  | .DS_ADDR_DAY => { t with day := v }
  | .DS_ADDR_MONTH => { t with month := v }
  | .DS_ADDR_WEEKDAY => { t with weekday := v }
  | .DS_ADDR_YEAR => { t with year := v }

/-- The globals the decoder works on: `zda_state`, `zda_state_pos`,
`zda_checksum`, `gpstm_table` and the ready flag `gpstm_needupdate`. -/
structure Decoder where
  zda_state : nmea_state
  zda_state_pos : Nat
  zda_checksum : Nat
  gpstm_table : Table
  gpstm_needupdate : Bool
  deriving DecidableEq, Repr

/-! ## The sentence decoder -/

/-- The expansion of `#define set_zda_state(s) zda_state = s; zda_state_pos = 0;`. -/
def set_zda_state (d : Decoder) (s : nmea_state) : Decoder :=
  { d with zda_state := s, zda_state_pos := 0 }

/-- The part of the `NM_ZDACHECKSUM` branch after the hexadecimal digit has
been decoded into `digit`. -/
def checksum_digit (d : Decoder) (digit : Nat) : Decoder :=
  if d.zda_state_pos = 0 then
    { d with zda_checksum := d.zda_checksum ^^^ (digit <<< 4), zda_state_pos := 1 }
  else
    set_zda_state
      (if d.zda_checksum = digit then { d with gpstm_needupdate := true } else d)
      .NM_UNKNOWN

/-- A two-digit field (`NM_ZDADAY`, `NM_ZDAMONTH`): the digit branch that
packs the digit at position 0 into the high nibble and adds the digit at
position 1. -/
def two_digit_field (d : Decoder) (a : DsAddr) (data : Nat) : Decoder :=
  if d.zda_state_pos = 0 then
    { d with gpstm_table := d.gpstm_table.set a (((data - 48) <<< 4) % 256),
             zda_state_pos := (d.zda_state_pos + 1) % 256 }
  else if d.zda_state_pos = 1 then
    { d with gpstm_table := d.gpstm_table.set a ((d.gpstm_table.get a + (data - 48)) % 256),
             zda_state_pos := (d.zda_state_pos + 1) % 256 }
  else
    set_zda_state d .NM_UNKNOWN

/-- The function `processUartData(data)`: one received byte. -/
def processUartData (d0 : Decoder) (data : Nat) : Decoder :=
  if d0.gpstm_needupdate = true then
    d0
  else if data = 36 then
    { set_zda_state d0 .NM_HEADER with zda_checksum := 42 }
  else if d0.zda_state = .NM_UNKNOWN then
    d0
  else if d0.zda_state = .NM_ZDACHECKSUM then
    if 48 ≤ data ∧ data ≤ 57 then
      checksum_digit d0 (data - 48)
    else if 65 ≤ data ∧ data ≤ 70 then
      checksum_digit d0 (data - 65 + 10)
    else
      set_zda_state d0 .NM_UNKNOWN
  else
    let d : Decoder := { d0 with zda_checksum := d0.zda_checksum ^^^ data }
    if d.zda_state = .NM_HEADER then
      if d.zda_state_pos = 0 ∧ data = 71 then
        { d with zda_state_pos := (d.zda_state_pos + 1) % 256 }
      else if d.zda_state_pos = 1 ∧ data = 80 then
        { d with zda_state_pos := (d.zda_state_pos + 1) % 256 }
      else if d.zda_state_pos = 2 ∧ data = 90 then
        { d with zda_state_pos := (d.zda_state_pos + 1) % 256 }
      else if d.zda_state_pos = 3 ∧ data = 68 then
        { d with zda_state_pos := (d.zda_state_pos + 1) % 256 }
      else if d.zda_state_pos = 4 ∧ data = 65 then
        { d with zda_state_pos := (d.zda_state_pos + 1) % 256 }
      else if d.zda_state_pos = 5 ∧ data = 44 then
        set_zda_state d .NM_ZDATIME
      else
        set_zda_state d .NM_UNKNOWN
    else if d.zda_state = .NM_ZDATIME then
      if data = 46 ∧ d.zda_state_pos = 6 then
        set_zda_state d .NM_ZDAFRACRIONSECONDS
      else if data < 48 ∨ data > 57 then
        set_zda_state d .NM_UNKNOWN
      else
        let time_part : Option DsAddr :=
          if d.zda_state_pos < 2 then some .DS_ADDR_HOUR
          else if d.zda_state_pos < 4 then some .DS_ADDR_MINUTES
          else if d.zda_state_pos < 6 then some .DS_ADDR_SECONDS
          else none
        match time_part with
        | none => set_zda_state d .NM_UNKNOWN
        | some a =>
          if d.zda_state_pos &&& 1 = 0 then
            { d with gpstm_table := d.gpstm_table.set a (((data - 48) <<< 4) % 256),
                     zda_state_pos := (d.zda_state_pos + 1) % 256 }
          else
            { d with gpstm_table :=
                       d.gpstm_table.set a ((d.gpstm_table.get a + (data - 48)) % 256),
                     zda_state_pos := (d.zda_state_pos + 1) % 256 }
    else if d.zda_state = .NM_ZDAFRACRIONSECONDS then
      if data = 44 then set_zda_state d .NM_ZDADAY
      else if data < 48 ∨ data > 57 then set_zda_state d .NM_UNKNOWN
      else d
    else if d.zda_state = .NM_ZDADAY then
      if data = 44 then set_zda_state d .NM_ZDAMONTH
      else if data < 48 ∨ data > 57 then set_zda_state d .NM_UNKNOWN
      else two_digit_field d .DS_ADDR_DAY data
    else if d.zda_state = .NM_ZDAMONTH then
      if data = 44 then set_zda_state d .NM_ZDAYEAR
      else if data < 48 ∨ data > 57 then set_zda_state d .NM_UNKNOWN
      else two_digit_field d .DS_ADDR_MONTH data
    else if d.zda_state = .NM_ZDAYEAR then
      if data = 44 then set_zda_state d .NM_ZDATZHOUR
      else if data < 48 ∨ data > 57 then set_zda_state d .NM_UNKNOWN
      else
        if d.zda_state_pos < 2 then
          { d with zda_state_pos := (d.zda_state_pos + 1) % 256 }
        else if d.zda_state_pos = 2 then
          { d with gpstm_table := d.gpstm_table.set .DS_ADDR_YEAR (((data - 48) <<< 4) % 256),
                   zda_state_pos := (d.zda_state_pos + 1) % 256 }
        else if d.zda_state_pos = 3 then
          { d with gpstm_table :=
                     d.gpstm_table.set .DS_ADDR_YEAR
                       ((d.gpstm_table.get .DS_ADDR_YEAR + (data - 48)) % 256),
                   zda_state_pos := (d.zda_state_pos + 1) % 256 }
        else
          set_zda_state d .NM_UNKNOWN
    else if d.zda_state = .NM_ZDATZHOUR then
      if data = 44 then set_zda_state d .NM_ZDATZMINUTE
      else if data < 48 ∨ data > 57 then set_zda_state d .NM_UNKNOWN
      else d
    else if d.zda_state = .NM_ZDATZMINUTE then
      if data = 42 then set_zda_state d .NM_ZDACHECKSUM
      else if data < 48 ∨ data > 57 then set_zda_state d .NM_UNKNOWN
      else d
    else
      d

/-- The bytes of a serial stream fed to `processUartData` one after the
other, as the UART interrupt does. -/
def feed (d : Decoder) (bytes : List Nat) : Decoder :=
  bytes.foldl processUartData d

/-! ## BCD helpers of the RTC driver -/

/-- Modelled from the spec: `ds_split2int` is defined in ds1302.c, which is not
among the sources.  It is the driver's `decode_bcd(byte) -> int` for a packed
BCD byte ("one decimal digit per nibble"): ten times the high nibble plus the
low nibble. -/
def ds_split2int (tens_hex : Nat) : Nat :=
  (tens_hex / 16) * 10 + tens_hex % 16

/-- Modelled from the spec: `ds_int2bcd` is defined in ds1302.c, which is not
among the sources.  It is the driver's `encode_bcd(int) -> byte`: the tens
digit in the high nibble, the units digit in the low nibble, returned as a
byte. -/
def ds_int2bcd (integer : Nat) : Nat :=
  ((integer / 10) * 16 + integer % 10) % 256

/-! ## Calendar arithmetic -/

/-- The table `month_days[12]`. -/
def month_days : List Nat := [31, 28, 31, 30, 31, 30, 31, 31, 30, 31, 30, 31]

/-- The function `get_days()`: the day number of the date staged in
`gpstm_table`.  `year` and `month` are `uint8_t`, `result` is `uint16_t`.  A
month field outside 1..12 makes the C loop read past `month_days`, which C
leaves undefined; the model reads 0 there. -/
def get_days (gpstm_table : Table) : Nat :=
  let year := ds_split2int gpstm_table.year % 256
  let month := (ds_split2int gpstm_table.month + 255) % 256
  let result := (year * 365 + (year >>> 2)) % 65536
  let result := if year &&& 3 ≠ 0 ∨ month > 1 then (result + 1) % 65536 else result
  let result :=
    (List.range month).foldl (fun r m => (r + month_days.getD m 0) % 65536) result
  (result + ds_split2int gpstm_table.day) % 65536

/-- The `while (1)` loop of `set_days` on its locals `day`, `month`, `year`;
each unit of fuel pays for one iteration, and `none` means the fuel ran out
before the `break`. -/
def set_days_loop : Nat → Nat → Nat → Nat → Option (Nat × Nat × Nat)
  | 0, _, _, _ => none
  | fuel + 1, day, month, year =>
    let m_days :=
      (month_days.getD month 0 + (if month = 1 ∧ year &&& 3 = 0 then 1 else 0)) % 256
    if day ≤ m_days then
      some (day, month, year)
    else
      if month + 1 = 12 then
        set_days_loop fuel (day - m_days) 0 ((year + 1) % 256)
      else
        set_days_loop fuel (day - m_days) (month + 1) year

/-- The function `set_days(days)`: writes the date of day number `days` (and
its weekday) into `gpstm_table`.  The loop is given `day + 1` units of fuel,
which is always enough (`set_days_loop_isSome`).  `days + 4` is computed in
the 16-bit `unsigned int` of the target. -/
def set_days (days : Nat) (gpstm_table : Table) : Option Table :=
  let year := (days / 366) % 256
  let day := days % 366
  let leap_years := ((year >>> 2) + (if year &&& 3 ≠ 0 then 1 else 0)) % 256
  let day := (day + year - leap_years) % 65536
  match set_days_loop (day + 1) day 0 year with
  | none => none
  | some (day, month, year) =>
    some { gpstm_table with
      day := ds_int2bcd (day % 256),
      month := ds_int2bcd ((month + 1) % 256),
      year := ds_int2bcd year,
      weekday := (days + 4) % 65536 % 7 + 1 }

/-! ## Timezone adjustment -/

/-- The conversion of an integer to `int8_t` (two's complement wrap). -/
def toInt8 (x : Int) : Int := (x + 128) % 256 - 128

/-- The conversion of an integer to `uint8_t`. -/
def toUInt8 (x : Int) : Nat := (x % 256).toNat

/-- The locals `(minutes, hours, days)` of `adjust_timezone` when it reaches
its three closing assignments: the statements of the function up to there.
`tz_bias_hour` and `tz_bias_minute` are the `int8_t` globals. -/
def adjust_timezone_locals (tz_bias_hour tz_bias_minute : Int) (gpstm_table : Table) :
    Int × Int × Nat :=
  let hours := toInt8 (ds_split2int gpstm_table.hour)
  let minutes := toInt8 (ds_split2int gpstm_table.minutes)
  let days := get_days gpstm_table
  let minutes := toInt8 (minutes + tz_bias_minute)
  let hm : Int × Int :=
    if minutes < 0 then (toInt8 (hours - 1), toInt8 (minutes + 60))
    else if minutes ≥ 60 then (toInt8 (hours + 1), toInt8 (minutes - 60))
    else (hours, minutes)
  let hours := toInt8 (hm.1 + tz_bias_hour)
  let minutes := hm.2
  let dh : Nat × Int :=
    if hours < 0 then ((days + 65535) % 65536, toInt8 (hours + 24))
    else if hours ≥ 24 then ((days + 1) % 65536, toInt8 (hours - 24))
    else (days, hours)
  (minutes, dh.2, dh.1)

/-- The function `adjust_timezone()`. -/
def adjust_timezone (tz_bias_hour tz_bias_minute : Int) (gpstm_table : Table) :
    Option Table :=
  let l := adjust_timezone_locals tz_bias_hour tz_bias_minute gpstm_table
  set_days l.2.2
    { gpstm_table with
      minutes := ds_int2bcd (toUInt8 l.1),
      hour := ds_int2bcd (toUInt8 l.2.1) }

/-! ## Reconciliation with the RTC -/

/-- The declarations of ds1302.h that `checkDateNeedAdjust` uses besides the
table addresses; the header is not among the sources, so they are
parameters: the 12-hour display mode bit `H12_24` and the hour register masks
`DS_MASK_AMPM_MODE` and `DS_MASK_HOUR24`. -/
structure Ds1302 where
  H12_24 : Bool
  DS_MASK_AMPM_MODE : Nat
  DS_MASK_HOUR24 : Nat
  deriving DecidableEq, Repr

/-- The value assigned to `int8_t part_delta`, for the `uint8_t` operands
`rtc = rtc_table[DS_ADDR_SECONDS]` and `gps = gpstm_table[DS_ADDR_SECONDS]`:

  `(rtc >> 4 - gps >> 4) * 10 + (rtc & 0xF - gps & 0xF)`

which C parses as `((rtc >> (4 - gps)) >> 4) * 10 + ((rtc & (0xF - gps)) & 0xF)`,
because `-` binds tighter than `>>` and `&`.  When the shift count `4 - gps`
is negative C leaves the behaviour undefined; `undef` is the value
`part_delta` takes then. -/
def part_delta (undef : Int) (rtc gps : Nat) : Int :=
  let count : Int := 4 - (gps : Int)
  if 0 ≤ count then
    let tens : Nat := (rtc >>> count.toNat) >>> 4
    let units : Int := Int.land (Int.land (rtc : Int) (15 - (gps : Int))) 15
    toInt8 ((tens : Int) * 10 + units)
  else
    undef

/-- The six `ds_writebyte` calls of the commit, as (address, byte) pairs in
program order. -/
def commit_writes (gpstm_table : Table) : List (DsAddr × Nat) :=
  [(.DS_ADDR_SECONDS, gpstm_table.seconds),
   (.DS_ADDR_MINUTES, gpstm_table.minutes),
   (.DS_ADDR_HOUR, gpstm_table.hour),
   (.DS_ADDR_DAY, gpstm_table.day),
   (.DS_ADDR_MONTH, gpstm_table.month),
   (.DS_ADDR_YEAR, gpstm_table.year)]

/-- The 12-hour conversion inside `if (H12_24) { ... }`: the new value of
`gpstm_table[DS_ADDR_HOUR]`. -/
def hour_12 (hw : Ds1302) (rtc_table : Table) : Nat :=
  let hours := ds_split2int (rtc_table.hour &&& hw.DS_MASK_HOUR24)
  let b := hw.DS_MASK_AMPM_MODE
  let hb : Nat × Nat := if hours ≥ 12 then (hours - 12, b ||| 0x20) else (hours, b)
  let hours := if hb.1 = 0 then 12 else hb.1
  (hb.2 ||| ds_int2bcd hours) % 256

/-- The function `checkDateNeedAdjust()`: the globals after the call and the
`ds_writebyte` calls it made, in order. -/
def checkDateNeedAdjust (hw : Ds1302) (undef : Int) (rtc_table : Table)
    (tz_bias_hour tz_bias_minute : Int) (d : Decoder) :
    Option (Decoder × List (DsAddr × Nat)) :=
  if rtc_table.seconds > 0x30 ∧ rtc_table.seconds < 0x40 then
    match adjust_timezone tz_bias_hour tz_bias_minute d.gpstm_table with
    | none => none
    | some adjusted =>
      let delta := part_delta undef rtc_table.seconds adjusted.seconds
      let gpstm_table :=
        if hw.H12_24 = true then { adjusted with hour := hour_12 hw rtc_table } else adjusted
      if (delta > 2 ∨ delta < -2)
          ∨ rtc_table.minutes ≠ gpstm_table.minutes
          ∨ rtc_table.hour ≠ gpstm_table.hour
          ∨ rtc_table.day ≠ gpstm_table.day
          ∨ rtc_table.month ≠ gpstm_table.month
          ∨ rtc_table.year ≠ gpstm_table.year then
        some ({ d with gpstm_table := gpstm_table, gpstm_needupdate := false },
              commit_writes gpstm_table)
      else
        some ({ d with gpstm_table := gpstm_table, gpstm_needupdate := false }, [])
  else
    some ({ d with gpstm_needupdate := false }, [])

/-- The main loop's `if (gpstm_needupdate == 1) { checkDateNeedAdjust(); }`. -/
def main_sync (hw : Ds1302) (undef : Int) (rtc_table : Table)
    (tz_bias_hour tz_bias_minute : Int) (d : Decoder) :
    Option (Decoder × List (DsAddr × Nat)) :=
  if d.gpstm_needupdate = true then
    checkDateNeedAdjust hw undef rtc_table tz_bias_hour tz_bias_minute d
  else
    some (d, [])

/-! ## Sentences, for stating the decoder's properties -/

/-- The XOR of a list of bytes: the NMEA checksum of a payload. -/
def xor_all (bytes : List Nat) : Nat :=
  bytes.foldl (fun a b => a ^^^ b) 0

/-- The character code of the uppercase hexadecimal digit of value `n`:
`'0'`..`'9'` below ten, `'A'`..`'F'` from ten on. -/
def hex_char (n : Nat) : Nat :=
  if n < 10 then 48 + n else 55 + n

/-- The character code of a decimal digit. -/
def digit_char (x : Fin 10) : Nat := 48 + x.val

/-- The digits of a well-formed `$GPZDA` sentence: time `h1 h2 m1 m2 s1 s2`,
the fraction digits after the `.`, day `d1 d2`, month `mo1 mo2`, year
`y1 y2 y3 y4`, and the digits of the two timezone fields. -/
structure ZdaSentence where
  h1 : Fin 10
  h2 : Fin 10
  m1 : Fin 10
  m2 : Fin 10
  s1 : Fin 10
  s2 : Fin 10
  frac : List (Fin 10)
  d1 : Fin 10
  d2 : Fin 10
  mo1 : Fin 10
  mo2 : Fin 10
  y1 : Fin 10
  y2 : Fin 10
  y3 : Fin 10
  y4 : Fin 10
  tzh : List (Fin 10)
  tzm : List (Fin 10)

/-- The payload of the sentence: the bytes strictly between `'$'` and `'*'`,
`GPZDA,HHMMSS.f*,DD,MM,YYYY,t*,t*`. -/
def ZdaSentence.payload (z : ZdaSentence) : List Nat :=
  [71, 80, 90, 68, 65, 44]
    ++ [digit_char z.h1, digit_char z.h2, digit_char z.m1, digit_char z.m2,
        digit_char z.s1, digit_char z.s2, 46]
    ++ z.frac.map digit_char
    ++ [44, digit_char z.d1, digit_char z.d2, 44, digit_char z.mo1, digit_char z.mo2, 44,
        digit_char z.y1, digit_char z.y2, digit_char z.y3, digit_char z.y4, 44]
    ++ z.tzh.map digit_char
    ++ [44]
    ++ z.tzm.map digit_char

/-- The whole sentence with checksum digits of values `c1` and `c2`:
`'$'`, the payload, `'*'` and the two uppercase hexadecimal digits. -/
def ZdaSentence.bytes (z : ZdaSentence) (c1 c2 : Nat) : List Nat :=
  36 :: z.payload ++ [42, hex_char c1, hex_char c2]

/-- The staged table a well-formed sentence leaves behind: packed BCD with
the first digit of each field in the high nibble; the weekday entry is not
touched by the decoder. -/
def ZdaSentence.staged (z : ZdaSentence) (t : Table) : Table :=
  { t with
    hour := 16 * z.h1.val + z.h2.val,
    minutes := 16 * z.m1.val + z.m2.val,
    seconds := 16 * z.s1.val + z.s2.val,
    day := 16 * z.d1.val + z.d2.val,
    month := 16 * z.mo1.val + z.mo2.val,
    year := 16 * z.y3.val + z.y4.val }

/-! ## Concrete inputs -/

/-- The decoder globals as the C start-up code leaves them: state
`NM_UNKNOWN`, everything else zero. -/
def idle_decoder : Decoder :=
  ⟨.NM_UNKNOWN, 0, 0, ⟨0, 0, 0, 0, 0, 0, 0⟩, false⟩

/-- The digits of `$GPZDA,123456.78,09,10,2024,00,00*62`. -/
def sample_sentence : ZdaSentence where
  h1 := 1
  h2 := 2
  m1 := 3
  m2 := 4
  s1 := 5
  s2 := 6
  frac := [7, 8]
  d1 := 0
  d2 := 9
  mo1 := 1
  mo2 := 0
  y1 := 2
  y2 := 0
  y3 := 2
  y4 := 4
  tzh := [0, 0]
  tzm := [0, 0]

/-- The bytes of `$GPZDA,123456.78,9,10,2024,00,00*52`: a one-digit day field,
with the checksum digits `52` that match the payload. -/
def short_day_bytes : List Nat :=
  [36, 71, 80, 90, 68, 65, 44, 49, 50, 51, 52, 53, 54, 46, 55, 56, 44, 57, 44, 49, 48, 44,
   50, 48, 50, 52, 44, 48, 48, 44, 48, 48, 42, 53, 50]

/-- The ds1302.h declarations as the DS1302 hour register lays them out, in
24-hour display mode: bit 7 selects the 12-hour mode, bits 5..0 hold the
24-hour hour. -/
def hw_24h : Ds1302 := ⟨false, 0x80, 0x3F⟩

/-- The same declarations in 12-hour display mode. -/
def hw_12h : Ds1302 := ⟨true, 0x80, 0x3F⟩

/-- A table holding 15 June of year 24, 12:00:00 (weekday entry 7). -/
def noon_table : Table := ⟨0x00, 0x00, 0x12, 0x15, 0x06, 7, 0x24⟩

/-- A table holding 31 December of year 00, 12:00:00. -/
def last_day_of_year_00 : Table := ⟨0x00, 0x00, 0x12, 0x31, 0x12, 1, 0x00⟩

/-- A decoder that has just accepted a sentence staging `t`: idle again,
ready flag set. -/
def ready_decoder (t : Table) : Decoder := ⟨.NM_UNKNOWN, 0, 0, t, true⟩

/-- A stream that starts like a `$GPZDA` sentence whose time field is the six
digits `HHMMSS` followed directly by the field separator `,` (no `.`), and
then goes on with the bytes `rest`. -/
def zda_no_fraction (h1 h2 m1 m2 s1 s2 : Fin 10) (rest : List Nat) : List Nat :=
  36 :: [71, 80, 90, 68, 65, 44]
    ++ [digit_char h1, digit_char h2, digit_char m1, digit_char m2,
        digit_char s1, digit_char s2]
    ++ 44 :: rest

/-- The bytes of `$GPZDA,123456,09,10,2024,00,00*43`: no `.` after the time
digits, otherwise well-formed, with the checksum digits `43` that match the
payload. -/
def no_fraction_bytes : List Nat :=
  [36, 71, 80, 90, 68, 65, 44, 49, 50, 51, 52, 53, 54, 44, 48, 57, 44, 49, 48, 44,
   50, 48, 50, 52, 44, 48, 48, 44, 48, 48, 42, 52, 51]

/-! ## The calendar, for stating the round trip -/

/-- The length of month `month` (0 for January, 11 for December) of year
`year` in the calendar of the two-digit year range: `month_days`, with a 29th
of February in every year divisible by 4. -/
def month_length (year month : Nat) : Nat :=
  month_days.getD month 0 + (if month = 1 ∧ year % 4 = 0 then 1 else 0)

/-- The number of days in the `n` months of year `year` that start with month
`month` (counted from 0). -/
def days_of_months (year month : Nat) : Nat → Nat
  | 0 => 0
  | n + 1 => month_length year month + days_of_months year (month + 1) n

/-- A table holding 29 February of year 24, 12:00:00. -/
def leap_day_table : Table := ⟨0x00, 0x00, 0x12, 0x29, 0x02, 1, 0x24⟩

/-! # Theorems -/

/-! ## Feeding a stream -/

theorem feed_append (d : Decoder) (l1 l2 : List Nat) :
    feed d (l1 ++ l2) = feed (feed d l1) l2 := by
  simp [feed, List.foldl_append]

theorem feed_cons (d : Decoder) (b : Nat) (l : List Nat) :
    feed d (b :: l) = feed (processUartData d b) l := rfl

theorem feed_nil (d : Decoder) : feed d [] = d := rfl

/-- Folding XOR from an accumulator is the accumulator XOR the fold from 0. -/
theorem foldl_xor (a : Nat) (l : List Nat) :
    l.foldl (fun a b => a ^^^ b) a = a ^^^ xor_all l := by
  unfold xor_all
  induction l generalizing a with
  | nil => simp
  | cons b l ih =>
    simp only [List.foldl_cons]
    rw [ih (a ^^^ b), ih (0 ^^^ b), Nat.zero_xor, Nat.xor_assoc]

theorem digit_char_bounds (x : Fin 10) : 48 ≤ digit_char x ∧ digit_char x ≤ 57 := by
  have := x.isLt
  unfold digit_char
  omega

/-! ## Steps of the decoder on a well-formed sentence -/

theorem step_dollar (d : Decoder) (h : d.gpstm_needupdate = false) :
    processUartData d 36 = ⟨.NM_HEADER, 0, 42, d.gpstm_table, false⟩ := by
  simp [processUartData, set_zda_state, h]

theorem feed_header (c : Nat) (t : Table) :
    feed ⟨.NM_HEADER, 0, c, t, false⟩ [71, 80, 90, 68, 65, 44]
      = ⟨.NM_ZDATIME, 0, [71, 80, 90, 68, 65, 44].foldl (fun a b => a ^^^ b) c, t, false⟩ := by
  simp [feed, processUartData, set_zda_state]

theorem feed_time (c : Nat) (t : Table) (h1 h2 m1 m2 s1 s2 : Fin 10) :
    feed ⟨.NM_ZDATIME, 0, c, t, false⟩
        [digit_char h1, digit_char h2, digit_char m1, digit_char m2,
         digit_char s1, digit_char s2, 46]
      = ⟨.NM_ZDAFRACRIONSECONDS, 0,
          [digit_char h1, digit_char h2, digit_char m1, digit_char m2,
           digit_char s1, digit_char s2, 46].foldl (fun a b => a ^^^ b) c,
          { t with hour := 16 * h1.val + h2.val, minutes := 16 * m1.val + m2.val,
                   seconds := 16 * s1.val + s2.val }, false⟩ := by
  have a1 := h1.isLt; have a2 := h2.isLt; have a3 := m1.isLt; have a4 := m2.isLt
  have a5 := s1.isLt; have a6 := s2.isLt
  have e1 : ∀ x : Fin 10, ¬ (48 + x.val = 36) := fun x => by omega
  have e2 : ∀ x : Fin 10, ¬ (57 < 48 + x.val) := fun x => by omega
  have e3 : ∀ x : Fin 10, ¬ (48 + x.val = 46) := fun x => by omega
  have e4 : ∀ x y : Fin 10, (x.val * 16 % 256 + y.val) % 256 = 16 * x.val + y.val :=
    fun x y => by omega
  simp [feed, processUartData, set_zda_state, digit_char, Table.set, Table.get,
    Nat.shiftLeft_eq, e1, e2, e3, e4]

/-- A run of digits inside the fraction field only feeds the checksum. -/
theorem feed_frac_digits (c : Nat) (t : Table) (l : List (Fin 10)) :
    feed ⟨.NM_ZDAFRACRIONSECONDS, 0, c, t, false⟩ (l.map digit_char)
      = ⟨.NM_ZDAFRACRIONSECONDS, 0, (l.map digit_char).foldl (fun a b => a ^^^ b) c, t,
          false⟩ := by
  induction l generalizing c with
  | nil => rfl
  | cons x l ih =>
    have hx := x.isLt
    have e1 : ¬ (48 + x.val = 36) := by omega
    have e2 : ¬ (57 < 48 + x.val) := by omega
    have e3 : ¬ (48 + x.val = 44) := by omega
    have step : processUartData ⟨.NM_ZDAFRACRIONSECONDS, 0, c, t, false⟩ (digit_char x)
        = ⟨.NM_ZDAFRACRIONSECONDS, 0, c ^^^ digit_char x, t, false⟩ := by
      simp [processUartData, set_zda_state, digit_char, e1, e2, e3]
    rw [List.map_cons, feed_cons, step, ih]
    rfl

/-- A run of digits inside the timezone-hour field only feeds the checksum. -/
theorem feed_tzh_digits (c : Nat) (t : Table) (l : List (Fin 10)) :
    feed ⟨.NM_ZDATZHOUR, 0, c, t, false⟩ (l.map digit_char)
      = ⟨.NM_ZDATZHOUR, 0, (l.map digit_char).foldl (fun a b => a ^^^ b) c, t, false⟩ := by
  induction l generalizing c with
  | nil => rfl
  | cons x l ih =>
    have hx := x.isLt
    have e1 : ¬ (48 + x.val = 36) := by omega
    have e2 : ¬ (57 < 48 + x.val) := by omega
    have e3 : ¬ (48 + x.val = 44) := by omega
    have step : processUartData ⟨.NM_ZDATZHOUR, 0, c, t, false⟩ (digit_char x)
        = ⟨.NM_ZDATZHOUR, 0, c ^^^ digit_char x, t, false⟩ := by
      simp [processUartData, set_zda_state, digit_char, e1, e2, e3]
    rw [List.map_cons, feed_cons, step, ih]
    rfl

/-- A run of digits inside the timezone-minute field only feeds the checksum. -/
theorem feed_tzm_digits (c : Nat) (t : Table) (l : List (Fin 10)) :
    feed ⟨.NM_ZDATZMINUTE, 0, c, t, false⟩ (l.map digit_char)
      = ⟨.NM_ZDATZMINUTE, 0, (l.map digit_char).foldl (fun a b => a ^^^ b) c, t, false⟩ := by
  induction l generalizing c with
  | nil => rfl
  | cons x l ih =>
    have hx := x.isLt
    have e1 : ¬ (48 + x.val = 36) := by omega
    have e2 : ¬ (57 < 48 + x.val) := by omega
    have e3 : ¬ (48 + x.val = 42) := by omega
    have step : processUartData ⟨.NM_ZDATZMINUTE, 0, c, t, false⟩ (digit_char x)
        = ⟨.NM_ZDATZMINUTE, 0, c ^^^ digit_char x, t, false⟩ := by
      simp [processUartData, set_zda_state, digit_char, e1, e2, e3]
    rw [List.map_cons, feed_cons, step, ih]
    rfl

/-- The day, month and year fields, from the `,` that ends the fraction to
the `,` that ends the year. -/
theorem feed_date (c : Nat) (t : Table) (d1 d2 mo1 mo2 y1 y2 y3 y4 : Fin 10) :
    feed ⟨.NM_ZDAFRACRIONSECONDS, 0, c, t, false⟩
        [44, digit_char d1, digit_char d2, 44, digit_char mo1, digit_char mo2, 44,
         digit_char y1, digit_char y2, digit_char y3, digit_char y4, 44]
      = ⟨.NM_ZDATZHOUR, 0,
          [44, digit_char d1, digit_char d2, 44, digit_char mo1, digit_char mo2, 44,
           digit_char y1, digit_char y2, digit_char y3, digit_char y4, 44].foldl
            (fun a b => a ^^^ b) c,
          { t with day := 16 * d1.val + d2.val, month := 16 * mo1.val + mo2.val,
                   year := 16 * y3.val + y4.val }, false⟩ := by
  have e1 : ∀ x : Fin 10, ¬ (48 + x.val = 36) := fun x => by omega
  have e2 : ∀ x : Fin 10, ¬ (57 < 48 + x.val) := fun x => by omega
  have e3 : ∀ x : Fin 10, ¬ (48 + x.val = 44) := fun x => by omega
  have e4 : ∀ x y : Fin 10, (x.val * 16 % 256 + y.val) % 256 = 16 * x.val + y.val :=
    fun x y => by omega
  simp [feed, processUartData, set_zda_state, two_digit_field, digit_char, Table.set,
    Table.get, Nat.shiftLeft_eq, e1, e2, e3, e4]

theorem feed_tz_comma (c : Nat) (t : Table) :
    feed ⟨.NM_ZDATZHOUR, 0, c, t, false⟩ [44]
      = ⟨.NM_ZDATZMINUTE, 0, [44].foldl (fun a b => a ^^^ b) c, t, false⟩ := by
  simp [feed, processUartData, set_zda_state]

theorem feed_star (c : Nat) (t : Table) :
    feed ⟨.NM_ZDATZMINUTE, 0, c, t, false⟩ [42]
      = ⟨.NM_ZDACHECKSUM, 0, [42].foldl (fun a b => a ^^^ b) c, t, false⟩ := by
  simp [feed, processUartData, set_zda_state]

/-- A well-formed sentence up to and including the `*`: the decoder waits for
the checksum digits, the accumulator holds the XOR of the payload and the
table holds the staged fields. -/
theorem feed_to_star (d : Decoder) (h : d.gpstm_needupdate = false) (z : ZdaSentence) :
    feed d (36 :: z.payload ++ [42])
      = ⟨.NM_ZDACHECKSUM, 0, xor_all z.payload, z.staged d.gpstm_table, false⟩ := by
  have hx : (z.payload ++ [42]).foldl (fun a b => a ^^^ b) 42 = xor_all z.payload := by
    rw [List.foldl_append, foldl_xor 42 z.payload]
    show (42 ^^^ xor_all z.payload) ^^^ 42 = xor_all z.payload
    rw [Nat.xor_comm 42, Nat.xor_cancel_right]
  rw [← hx, List.cons_append, feed_cons, step_dollar d h]
  simp only [ZdaSentence.payload, feed_append, List.foldl_append]
  rw [feed_header, feed_time, feed_frac_digits, feed_date, feed_tzh_digits, feed_tz_comma,
    feed_tzm_digits, feed_star]
  rfl

theorem hex_char_digit (n : Nat) (h : n < 16) :
    (48 ≤ hex_char n ∧ hex_char n ≤ 57 ∧ hex_char n - 48 = n)
      ∨ (¬ (48 ≤ hex_char n ∧ hex_char n ≤ 57)
          ∧ 65 ≤ hex_char n ∧ hex_char n ≤ 70 ∧ hex_char n - 65 + 10 = n) := by
  unfold hex_char
  split <;> omega

theorem step_hex1 (c : Nat) (t : Table) (n : Nat) (h : n < 16) :
    processUartData ⟨.NM_ZDACHECKSUM, 0, c, t, false⟩ (hex_char n)
      = ⟨.NM_ZDACHECKSUM, 1, c ^^^ (n <<< 4), t, false⟩ := by
  have h36 : hex_char n ≠ 36 := by unfold hex_char; split <;> omega
  rcases hex_char_digit n h with ⟨a, b, e⟩ | ⟨a, b, b2, e⟩
  · simp [processUartData, checksum_digit, h36, a, b, e]
  · simp [processUartData, checksum_digit, h36, a, b, b2, e]

theorem step_hex2 (c : Nat) (t : Table) (n : Nat) (h : n < 16) :
    processUartData ⟨.NM_ZDACHECKSUM, 1, c, t, false⟩ (hex_char n)
      = ⟨.NM_UNKNOWN, 0, c, t, decide (c = n)⟩ := by
  have h36 : hex_char n ≠ 36 := by unfold hex_char; split <;> omega
  rcases hex_char_digit n h with ⟨a, b, e⟩ | ⟨a, b, b2, e⟩
  · by_cases hc : c = n <;> simp [processUartData, checksum_digit, set_zda_state, h36, a, b, e, hc]
  · by_cases hc : c = n <;>
      simp [processUartData, checksum_digit, set_zda_state, h36, a, b, b2, e, hc]

/-- A well-formed sentence up to its first checksum digit. -/
theorem feed_to_hex1 (d : Decoder) (h : d.gpstm_needupdate = false) (z : ZdaSentence)
    (c1 : Nat) (h1 : c1 < 16) :
    feed d (36 :: z.payload ++ [42, hex_char c1])
      = ⟨.NM_ZDACHECKSUM, 1, xor_all z.payload ^^^ (c1 <<< 4), z.staged d.gpstm_table,
          false⟩ := by
  have e : 36 :: z.payload ++ [42, hex_char c1] = (36 :: z.payload ++ [42]) ++ [hex_char c1] := by
    simp
  rw [e, feed_append, feed_to_star d h z, feed_cons, feed_nil, step_hex1 _ _ _ h1]

/-- A whole well-formed sentence with checksum digits of values `c1`, `c2`:
the flag is set exactly when the accumulator, after the first digit was
folded into its high nibble, equals the second digit. -/
theorem feed_sentence (d : Decoder) (h : d.gpstm_needupdate = false) (z : ZdaSentence)
    (c1 c2 : Nat) (h1 : c1 < 16) (h2 : c2 < 16) :
    feed d (z.bytes c1 c2)
      = ⟨.NM_UNKNOWN, 0, xor_all z.payload ^^^ (c1 <<< 4), z.staged d.gpstm_table,
          decide (xor_all z.payload ^^^ (c1 <<< 4) = c2)⟩ := by
  have e : z.bytes c1 c2 = (36 :: z.payload ++ [42, hex_char c1]) ++ [hex_char c2] := by
    simp [ZdaSentence.bytes]
  rw [e, feed_append, feed_to_hex1 d h z c1 h1, feed_cons, feed_nil, step_hex2 _ _ _ h2]

/-- Once the ready flag is set the decoder ignores the rest of the stream. -/
theorem feed_of_needupdate (d : Decoder) (h : d.gpstm_needupdate = true) (l : List Nat) :
    feed d l = d := by
  induction l with
  | nil => rfl
  | cons b l ih =>
    have : processUartData d b = d := by simp [processUartData, h]
    rw [feed_cons, this, ih]

/-- A stream that ends with the flag clear had it clear after every prefix. -/
theorem needupdate_clear_before (d : Decoder) (l1 l2 : List Nat)
    (h : (feed d (l1 ++ l2)).gpstm_needupdate = false) :
    (feed d l1).gpstm_needupdate = false := by
  cases hf : (feed d l1).gpstm_needupdate with
  | false => rfl
  | true =>
    rw [feed_append, feed_of_needupdate _ hf] at h
    rw [hf] at h
    exact h

theorem xor_all_lt (l : List Nat) (h : ∀ b ∈ l, b < 128) : xor_all l < 128 := by
  have key : ∀ (l : List Nat) (a : Nat), a < 128 → (∀ b ∈ l, b < 128) →
      l.foldl (fun a b => a ^^^ b) a < 128 := by
    intro l
    induction l with
    | nil => intro a ha _; exact ha
    | cons b l ih =>
      intro a ha hl
      have hb : b < 128 := hl b (List.mem_cons_self b l)
      have hab : a ^^^ b < 2 ^ 7 := Nat.xor_lt_two_pow (by simpa using ha) (by simpa using hb)
      exact ih (a ^^^ b) (by simpa using hab) (fun x hx => hl x (List.mem_cons_of_mem b hx))
  exact key l 0 (by decide) h

theorem payload_lt (z : ZdaSentence) : ∀ b ∈ z.payload, b < 128 := by
  intro b hb
  have hd : ∀ x : Fin 10, digit_char x < 128 := fun x => by
    have := x.isLt
    unfold digit_char
    omega
  simp only [ZdaSentence.payload, List.mem_append, List.mem_cons, List.mem_map,
    List.mem_singleton, List.not_mem_nil, or_false] at hb
  rcases hb with ((((((h | h | h | h | h | h) | (h | h | h | h | h | h | h)) | ⟨x, _, h⟩)
    | (h | h | h | h | h | h | h | h | h | h | h | h)) | ⟨x, _, h⟩) | h) | ⟨x, _, h⟩ <;>
    first
      | (subst h; exact hd _)
      | (subst h; decide)

/-- Folding the high hexadecimal digit of a byte into its high nibble leaves
the low hexadecimal digit. -/
theorem xor_high_nibble (x : Nat) (h : x < 128) : x ^^^ ((x / 16) <<< 4) = x % 16 := by
  interval_cases x <;> rfl

theorem nibbles_or (c1 c2 : Nat) (h1 : c1 < 16) (h2 : c2 < 16) :
    c2 ^^^ (c1 <<< 4) = (c1 <<< 4) ||| c2 := by
  interval_cases c1 <;> interval_cases c2 <;> rfl

/-! ## The decoder: claims -/

/-- Claim C1: from any decoder state with the ready flag clear, the sentence
`$GPZDA,HHMMSS.f*,DD,MM,YYYY,t*,t*` followed by `*` and the two uppercase
hexadecimal digits of the XOR of its payload leaves the ready flag clear
after every proper prefix, sets it on the last byte, and stages hour,
minutes, seconds, day, month as the packed BCD of their two digits (first
digit in the high nibble) and year as the packed BCD of the last two digits
of YYYY. -/
theorem zda_sentence_accepted (d : Decoder) (hclear : d.gpstm_needupdate = false)
    (z : ZdaSentence) :
    (∀ n, n < (z.bytes (xor_all z.payload / 16) (xor_all z.payload % 16)).length →
        (feed d
          ((z.bytes (xor_all z.payload / 16) (xor_all z.payload % 16)).take n)).gpstm_needupdate
          = false)
    ∧ (feed d (z.bytes (xor_all z.payload / 16) (xor_all z.payload % 16))).gpstm_needupdate = true
    ∧ (feed d (z.bytes (xor_all z.payload / 16) (xor_all z.payload % 16))).gpstm_table.hour
        = 16 * z.h1.val + z.h2.val
    ∧ (feed d (z.bytes (xor_all z.payload / 16) (xor_all z.payload % 16))).gpstm_table.minutes
        = 16 * z.m1.val + z.m2.val
    ∧ (feed d (z.bytes (xor_all z.payload / 16) (xor_all z.payload % 16))).gpstm_table.seconds
        = 16 * z.s1.val + z.s2.val
    ∧ (feed d (z.bytes (xor_all z.payload / 16) (xor_all z.payload % 16))).gpstm_table.day
        = 16 * z.d1.val + z.d2.val
    ∧ (feed d (z.bytes (xor_all z.payload / 16) (xor_all z.payload % 16))).gpstm_table.month
        = 16 * z.mo1.val + z.mo2.val
    ∧ (feed d (z.bytes (xor_all z.payload / 16) (xor_all z.payload % 16))).gpstm_table.year
        = 16 * z.y3.val + z.y4.val := by
  have hx : xor_all z.payload < 128 := xor_all_lt _ (payload_lt z)
  have h1 : xor_all z.payload / 16 < 16 := by omega
  have h2 : xor_all z.payload % 16 < 16 := by omega
  have hfull := feed_sentence d hclear z _ _ h1 h2
  have hpre := feed_to_hex1 d hclear z _ h1
  rw [xor_high_nibble _ hx] at hfull
  refine ⟨?_, ?_, ?_, ?_, ?_, ?_, ?_, ?_⟩
  · intro n hn
    have e : z.bytes (xor_all z.payload / 16) (xor_all z.payload % 16)
        = (36 :: z.payload ++ [42, hex_char (xor_all z.payload / 16)])
            ++ [hex_char (xor_all z.payload % 16)] := by
      simp [ZdaSentence.bytes]
    rw [e] at hn ⊢
    have hle : n ≤ (36 :: z.payload ++ [42, hex_char (xor_all z.payload / 16)]).length := by
      rw [List.length_append] at hn
      simp only [List.length_singleton] at hn
      omega
    rw [List.take_append_of_le_length hle]
    apply needupdate_clear_before d _
      (List.drop n (36 :: z.payload ++ [42, hex_char (xor_all z.payload / 16)]))
    rw [List.take_append_drop, hpre]
  all_goals rw [hfull]
  all_goals simp [ZdaSentence.staged]

/-- The sample sentence `$GPZDA,123456.78,09,10,2024,00,00*62` sets the flag
of the idle decoder. -/
theorem zda_sentence_accepted_witness :
    idle_decoder.gpstm_needupdate = false
    ∧ (feed idle_decoder
        (sample_sentence.bytes (xor_all sample_sentence.payload / 16)
          (xor_all sample_sentence.payload % 16))).gpstm_needupdate = true :=
  ⟨rfl, (zda_sentence_accepted idle_decoder rfl sample_sentence).2.1⟩

/-- Claim C2: for a well-formed sentence and any two uppercase hexadecimal checksum
digits of values `c1`, `c2`, the accumulator after the `*` is the XOR of the
payload bytes (the `*` seed has cancelled against the `*` terminator), and the
ready flag is set at the end if and only if that XOR equals `c1 << 4 | c2`. -/
theorem zda_checksum_accept_iff (d : Decoder) (hclear : d.gpstm_needupdate = false)
    (z : ZdaSentence) (c1 c2 : Nat) (h1 : c1 < 16) (h2 : c2 < 16) :
    (feed d (36 :: z.payload ++ [42])).zda_checksum = xor_all z.payload
    ∧ ((feed d (z.bytes c1 c2)).gpstm_needupdate = true
        ↔ xor_all z.payload = ((c1 <<< 4) ||| c2)) := by
  refine ⟨?_, ?_⟩
  · rw [feed_to_star d hclear z]
  · rw [feed_sentence d hclear z c1 c2 h1 h2, ← nibbles_or c1 c2 h1 h2]
    simp only [decide_eq_true_eq]
    constructor
    · intro h
      rw [← h, Nat.xor_cancel_right]
    · intro h
      rw [h, Nat.xor_cancel_right]

/-- The sample sentence is accepted with the digits `6`, `2` and with no
other pair that differs in the second digit, for instance `6`, `3`. -/
theorem zda_checksum_accept_iff_witness :
    ((feed idle_decoder (sample_sentence.bytes 6 2)).gpstm_needupdate = true
        ↔ xor_all sample_sentence.payload = ((6 <<< 4) ||| 2))
    ∧ ((feed idle_decoder (sample_sentence.bytes 6 3)).gpstm_needupdate = true
        ↔ xor_all sample_sentence.payload = ((6 <<< 4) ||| 3)) :=
  ⟨(zda_checksum_accept_iff idle_decoder rfl sample_sentence 6 2 (by decide) (by decide)).2,
   (zda_checksum_accept_iff idle_decoder rfl sample_sentence 6 3 (by decide) (by decide)).2⟩

/-- Claim C4: while the ready flag is set, `processUartData` changes nothing,
whatever the byte and whatever the decoder state. -/
theorem processUartData_ready_noop (d : Decoder) (data : Nat)
    (hready : d.gpstm_needupdate = true) :
    processUartData d data = d := by
  simp [processUartData, hready]

/-- A `$` received in the middle of the checksum digits, with the flag set,
changes nothing. -/
theorem processUartData_ready_noop_witness :
    processUartData ⟨.NM_ZDACHECKSUM, 1, 98, ⟨86, 52, 18, 9, 16, 0, 36⟩, true⟩ 36
      = ⟨.NM_ZDACHECKSUM, 1, 98, ⟨86, 52, 18, 9, 16, 0, 36⟩, true⟩ :=
  processUartData_ready_noop ⟨.NM_ZDACHECKSUM, 1, 98, ⟨86, 52, 18, 9, 16, 0, 36⟩, true⟩ 36
    rfl

/-- Claim C10 (the code differs): the sentence `$GPZDA,123456.78,9,10,2024,00,00*52`
has a one-digit day field, yet the `,` after it moves the decoder on to the
month field instead of resetting it, and the sentence ends with the ready
flag set and the day entry `0x90`. -/
theorem short_day_field_accepted :
    (feed idle_decoder (short_day_bytes.take 19)).zda_state = .NM_ZDAMONTH
    ∧ (feed idle_decoder short_day_bytes).gpstm_needupdate = true
    ∧ (feed idle_decoder short_day_bytes).gpstm_table.day = 0x90 := by
  decide

/-! ## Calendar and timezone: termination and carries -/

theorem month_days_bounds (month : Nat) (h : month < 12) :
    28 ≤ month_days.getD month 0 ∧ month_days.getD month 0 ≤ 31 := by
  interval_cases month <;> simp [month_days]

/-- The loop of `set_days` reaches its `break` whenever the fuel exceeds
`day`: every iteration that does not break takes at least 28 days off. -/
theorem set_days_loop_isSome (fuel : Nat) :
    ∀ day month year, month < 12 → day < fuel →
      ∃ r, set_days_loop fuel day month year = some r := by
  induction fuel with
  | zero => intro day month year _ h; omega
  | succ fuel ih =>
    intro day month year hm hd
    have hb := month_days_bounds month hm
    unfold set_days_loop
    simp only []
    split_ifs with h1 h2 h3 h4
    · exact ⟨_, rfl⟩
    · exact ih _ _ _ (by omega) (by omega)
    · exact ih _ _ _ (by omega) (by omega)
    · exact ⟨_, rfl⟩
    · exact ih _ _ _ (by omega) (by omega)
    · exact ih _ _ _ (by omega) (by omega)

/-- The function `set_days` always returns, and leaves the time of day alone. -/
theorem set_days_isSome (days : Nat) (t : Table) :
    ∃ t', set_days days t = some t'
      ∧ t'.seconds = t.seconds ∧ t'.minutes = t.minutes ∧ t'.hour = t.hour := by
  unfold set_days
  simp only []
  obtain ⟨r, hr⟩ := set_days_loop_isSome
    ((days % 366 + days / 366 % 256
        - ((days / 366 % 256) >>> 2 + (if days / 366 % 256 &&& 3 ≠ 0 then 1 else 0)) % 256)
      % 65536 + 1)
    ((days % 366 + days / 366 % 256
        - ((days / 366 % 256) >>> 2 + (if days / 366 % 256 &&& 3 ≠ 0 then 1 else 0)) % 256)
      % 65536) 0 (days / 366 % 256) (by decide) (by omega)
  rw [hr]
  exact ⟨_, rfl, rfl, rfl, rfl⟩

theorem toInt8_of_range (x : Int) (h1 : -128 ≤ x) (h2 : x ≤ 127) : toInt8 x = x := by
  unfold toInt8
  omega

theorem toUInt8_of_nat (n : Nat) (h : n < 256) : toUInt8 (n : Int) = n := by
  unfold toUInt8
  omega

theorem get_days_lt (t : Table) : get_days t < 65536 := by
  unfold get_days
  simp only []
  omega

/-- The minute step of `adjust_timezone`: the pair (hours, minutes) after
the first `if`, with the carry `c` into the hour. -/
theorem minute_step (h m : Nat) (bm : Int) (hh : h < 24) (hm : m < 60)
    (hbm1 : -59 ≤ bm) (hbm2 : bm ≤ 59) :
    ∃ (c : Int) (m' : Nat), (c = -1 ∨ c = 0 ∨ c = 1) ∧ m' < 60
      ∧ (m' : Int) = (m : Int) + bm - 60 * c
      ∧ (if (m : Int) + bm < 0 then (toInt8 ((h : Int) - 1), toInt8 ((m : Int) + bm + 60))
         else if (m : Int) + bm ≥ 60 then (toInt8 ((h : Int) + 1), toInt8 ((m : Int) + bm - 60))
         else ((h : Int), (m : Int) + bm))
        = ((h : Int) + c, (m' : Int)) := by
  by_cases c1 : (m : Int) + bm < 0
  · refine ⟨-1, ((m : Int) + bm + 60).toNat, by omega, by omega, by omega, ?_⟩
    rw [if_pos c1, toInt8_of_range _ (by omega) (by omega),
      toInt8_of_range _ (by omega) (by omega)]
    exact Prod.ext (by simp only []; omega) (by simp only []; omega)
  · by_cases c2 : (m : Int) + bm ≥ 60
    · refine ⟨1, ((m : Int) + bm - 60).toNat, by omega, by omega, by omega, ?_⟩
      rw [if_neg c1, if_pos c2, toInt8_of_range _ (by omega) (by omega),
        toInt8_of_range _ (by omega) (by omega)]
      exact Prod.ext (by simp only []) (by simp only []; omega)
    · refine ⟨0, ((m : Int) + bm).toNat, by omega, by omega, by omega, ?_⟩
      rw [if_neg c1, if_neg c2]
      exact Prod.ext (by simp only []; omega) (by simp only []; omega)

/-- The hour step of `adjust_timezone`: the pair (days, hours) after the
second `if`, with the carry `k` into the day number. -/
theorem hour_step (x bh : Int) (days : Nat) (hx1 : -1 ≤ x) (hx2 : x ≤ 24)
    (hbh1 : -23 ≤ bh) (hbh2 : bh ≤ 23) (hd : days < 65536) :
    ∃ (k : Int) (h' days' : Nat), (k = -1 ∨ k = 0 ∨ k = 1) ∧ h' < 24
      ∧ (h' : Int) = x + bh - 24 * k
      ∧ (days' : Int) = ((days : Int) + k) % 65536
      ∧ (if x + bh < 0 then ((days + 65535) % 65536, toInt8 (x + bh + 24))
         else if x + bh ≥ 24 then ((days + 1) % 65536, toInt8 (x + bh - 24))
         else (days, x + bh))
        = (days', (h' : Int)) := by
  by_cases k1 : x + bh < 0
  · refine ⟨-1, (x + bh + 24).toNat, (days + 65535) % 65536, by omega, by omega, by omega,
      by omega, ?_⟩
    rw [if_pos k1, toInt8_of_range _ (by omega) (by omega)]
    exact Prod.ext rfl (by simp only []; omega)
  · by_cases k2 : x + bh ≥ 24
    · refine ⟨1, (x + bh - 24).toNat, (days + 1) % 65536, by omega, by omega, by omega,
        by omega, ?_⟩
      rw [if_neg k1, if_pos k2, toInt8_of_range _ (by omega) (by omega)]
      exact Prod.ext rfl (by simp only []; omega)
    · refine ⟨0, (x + bh).toNat, days, by omega, by omega, by omega, by omega, ?_⟩
      rw [if_neg k1, if_neg k2]
      exact Prod.ext rfl (by simp only []; omega)

/-- The locals of `adjust_timezone` in closed form, for an hour below 24, a
minute below 60 and a bias within a day: `c` is the carry of the minute step
into the hour, `k` the carry of the hour step into the day number. -/
theorem adjust_timezone_locals_eq (t : Table) (bh bm : Int)
    (hh : ds_split2int t.hour < 24) (hm : ds_split2int t.minutes < 60)
    (hbh : -23 ≤ bh ∧ bh ≤ 23) (hbm : -59 ≤ bm ∧ bm ≤ 59) :
    ∃ (c k : Int) (h' m' days' : Nat),
      (c = -1 ∨ c = 0 ∨ c = 1) ∧ (k = -1 ∨ k = 0 ∨ k = 1) ∧ h' < 24 ∧ m' < 60
      ∧ (m' : Int) = (ds_split2int t.minutes : Int) + bm - 60 * c
      ∧ (h' : Int) = (ds_split2int t.hour : Int) + c + bh - 24 * k
      ∧ (days' : Int) = ((get_days t : Int) + k) % 65536
      ∧ adjust_timezone_locals bh bm t = ((m' : Int), (h' : Int), days') := by
  have hd := get_days_lt t
  obtain ⟨hbh1, hbh2⟩ := hbh
  obtain ⟨hbm1, hbm2⟩ := hbm
  unfold adjust_timezone_locals
  generalize ds_split2int t.hour = h at hh ⊢
  generalize ds_split2int t.minutes = m at hm ⊢
  generalize get_days t = days at hd ⊢
  have e1 : toInt8 (h : Int) = h := toInt8_of_range _ (by omega) (by omega)
  have e2 : toInt8 (m : Int) = m := toInt8_of_range _ (by omega) (by omega)
  have e3 : toInt8 ((m : Int) + bm) = m + bm := toInt8_of_range _ (by omega) (by omega)
  obtain ⟨c, m', hc, hm', hme, hp⟩ := minute_step h m bm hh hm hbm1 hbm2
  have e4 : toInt8 ((h : Int) + c + bh) = h + c + bh :=
    toInt8_of_range _ (by omega) (by omega)
  obtain ⟨k, h', days', hk, hh', hhe, hde, hq⟩ :=
    hour_step ((h : Int) + c) bh days (by omega) (by omega) hbh1 hbh2 hd
  refine ⟨c, k, h', m', days', hc, hk, hh', hm', hme, hhe, hde, ?_⟩
  simp only [e1, e2, e3, hp, e4, hq]

/-- The function `adjust_timezone` always returns, and leaves the seconds
alone. -/
theorem adjust_timezone_isSome (bh bm : Int) (t : Table) :
    ∃ t', adjust_timezone bh bm t = some t' ∧ t'.seconds = t.seconds := by
  unfold adjust_timezone
  simp only []
  obtain ⟨t', h, hs, _, _⟩ := set_days_isSome (adjust_timezone_locals bh bm t).2.2
    { t with minutes := ds_int2bcd (toUInt8 (adjust_timezone_locals bh bm t).1),
             hour := ds_int2bcd (toUInt8 (adjust_timezone_locals bh bm t).2.1) }
  exact ⟨t', h, hs⟩

/-! ## Calendar, timezone and reconciliation: claims -/

/-- Claim C3 (the code differs): for 31 December of year 00 `get_days`
returns 366, which `set_days` divides by 366 into year 1 and day 0, so that
it writes day `0x00`, month `0x01`, year `0x01` instead of `0x31`, `0x12`,
`0x00`. -/
theorem set_days_get_days_last_day_of_year_00 :
    get_days last_day_of_year_00 = 366
    ∧ set_days (get_days last_day_of_year_00) last_day_of_year_00
        = some { last_day_of_year_00 with
                  day := 0x00, month := 0x01, year := 0x01, weekday := 7 } := by
  decide

/-- Claim C5: for a staged hour `h` below 24, a staged minute `m` below 60
and a bias of at most 23 hours and 59 minutes in absolute value,
`adjust_timezone` reaches its closing assignments with minutes `m'` below
60, hours `h'` below 24 and the day number `get_days() + k` (as a
`uint16_t`, and exactly when `get_days()` is neither 0 nor 65535), where
the minute carry `c` and the day carry `k` are -1, 0 or 1, the sums
`m + bias` and `h + c + bias` fit an `int8_t`, and
`1440 k + 60 h' + m' = 60 h + m + 60 tz_bias_hour + tz_bias_minute`; it
passes that day number to `set_days`, returns with the BCD of `h'` and `m'`
in the hour and minutes entries, and leaves the seconds entry unchanged. -/
theorem adjust_timezone_carries (t : Table) (tz_bias_hour tz_bias_minute : Int)
    (hh : ds_split2int t.hour < 24) (hm : ds_split2int t.minutes < 60)
    (hbh : -23 ≤ tz_bias_hour ∧ tz_bias_hour ≤ 23)
    (hbm : -59 ≤ tz_bias_minute ∧ tz_bias_minute ≤ 59) :
    ∃ (c k : Int) (h' m' days' : Nat) (t' : Table),
      (c = -1 ∨ c = 0 ∨ c = 1) ∧ (k = -1 ∨ k = 0 ∨ k = 1) ∧ h' < 24 ∧ m' < 60
      ∧ (-128 ≤ (ds_split2int t.minutes : Int) + tz_bias_minute
          ∧ (ds_split2int t.minutes : Int) + tz_bias_minute ≤ 127)
      ∧ (-128 ≤ (ds_split2int t.hour : Int) + c + tz_bias_hour
          ∧ (ds_split2int t.hour : Int) + c + tz_bias_hour ≤ 127)
      ∧ 1440 * k + 60 * (h' : Int) + (m' : Int)
          = 60 * (ds_split2int t.hour : Int) + (ds_split2int t.minutes : Int)
            + 60 * tz_bias_hour + tz_bias_minute
      ∧ (days' : Int) = ((get_days t : Int) + k) % 65536
      ∧ (1 ≤ get_days t → get_days t < 65535 → (days' : Int) = (get_days t : Int) + k)
      ∧ adjust_timezone_locals tz_bias_hour tz_bias_minute t = ((m' : Int), (h' : Int), days')
      ∧ adjust_timezone tz_bias_hour tz_bias_minute t
          = set_days days' { t with minutes := ds_int2bcd m', hour := ds_int2bcd h' }
      ∧ adjust_timezone tz_bias_hour tz_bias_minute t = some t'
      ∧ t'.hour = ds_int2bcd h' ∧ t'.minutes = ds_int2bcd m' ∧ t'.seconds = t.seconds := by
  obtain ⟨c, k, h', m', days', hc, hk, hh', hm', hme, hhe, hde, hL⟩ :=
    adjust_timezone_locals_eq t tz_bias_hour tz_bias_minute hh hm hbh hbm
  have hadj : adjust_timezone tz_bias_hour tz_bias_minute t
      = set_days days' { t with minutes := ds_int2bcd m', hour := ds_int2bcd h' } := by
    unfold adjust_timezone
    simp only [hL, toUInt8_of_nat m' (by omega), toUInt8_of_nat h' (by omega)]
  obtain ⟨t', ht', hs, hmin, hhour⟩ :=
    set_days_isSome days' { t with minutes := ds_int2bcd m', hour := ds_int2bcd h' }
  refine ⟨c, k, h', m', days', t', hc, hk, hh', hm', by omega, by omega, by omega, hde,
    ?_, hL, hadj, by rw [hadj, ht'], hhour, hmin, hs⟩
  intro h1 h2
  omega

/-- A bias of -13:59 applied to 12:00 on 15 June gives 22:01, seconds kept. -/
theorem adjust_timezone_carries_witness :
    ∃ t', adjust_timezone (-13) (-59) noon_table = some t'
      ∧ t'.hour = ds_int2bcd 22 ∧ t'.minutes = ds_int2bcd 1
      ∧ t'.seconds = noon_table.seconds := by
  obtain ⟨c, k, h', m', days', t', hc, hk, hh', hm', _, _, heq, _, _, _, _, hsome, e1, e2,
    e3⟩ :=
    adjust_timezone_carries noon_table (-13) (-59) (by decide) (by decide) (by decide)
      (by decide)
  have a1 : ds_split2int noon_table.hour = 12 := by decide
  have a2 : ds_split2int noon_table.minutes = 0 := by decide
  rw [a1, a2] at heq
  have b1 : h' = 22 := by omega
  have b2 : m' = 1 := by omega
  subst b1 b2
  exact ⟨t', hsome, e1, e2, e3⟩

/-- Claim C6 as the code has it: with the RTC seconds outside the guard
window, `checkDateNeedAdjust` (and the main loop's call of it when the ready
flag is set) makes no RTC write and leaves `gpstm_table` and the decoder
state unchanged, but clears the ready flag; the staged record is dropped, and
the next main-loop pass, whatever the RTC then reads, does not look at it. -/
theorem checkDateNeedAdjust_outside_window (hw : Ds1302) (undef : Int) (rtc_table : Table)
    (tz_bias_hour tz_bias_minute : Int) (d : Decoder)
    (hready : d.gpstm_needupdate = true)
    (hout : ¬ (rtc_table.seconds > 0x30 ∧ rtc_table.seconds < 0x40)) :
    checkDateNeedAdjust hw undef rtc_table tz_bias_hour tz_bias_minute d
      = some ({ d with gpstm_needupdate := false }, [])
    ∧ main_sync hw undef rtc_table tz_bias_hour tz_bias_minute d
      = some ({ d with gpstm_needupdate := false }, [])
    ∧ ∀ rtc_next : Table,
        main_sync hw undef rtc_next tz_bias_hour tz_bias_minute
            { d with gpstm_needupdate := false }
          = some ({ d with gpstm_needupdate := false }, []) := by
  have h1 : checkDateNeedAdjust hw undef rtc_table tz_bias_hour tz_bias_minute d
      = some ({ d with gpstm_needupdate := false }, []) := by
    unfold checkDateNeedAdjust
    rw [if_neg hout]
  refine ⟨h1, ?_, ?_⟩
  · unfold main_sync
    rw [if_pos hready, h1]
  · intro rtc_next
    unfold main_sync
    rw [if_neg (by simp)]

/-- With RTC seconds `0x25` nothing is written and the flag is cleared. -/
theorem checkDateNeedAdjust_outside_window_witness :
    checkDateNeedAdjust hw_24h 0 { noon_table with seconds := 0x25, minutes := 0x30 } 3 0
        (ready_decoder noon_table)
      = some ({ ready_decoder noon_table with gpstm_needupdate := false }, []) :=
  (checkDateNeedAdjust_outside_window hw_24h 0
    { noon_table with seconds := 0x25, minutes := 0x30 } 3 0 (ready_decoder noon_table) rfl
    (by decide)).1

/-- Claim C6 as stated fails: with RTC seconds `0x25` and the ready flag set,
the flag is clear after the call, not set. -/
theorem ready_flag_cleared_outside_window :
    (ready_decoder noon_table).gpstm_needupdate = true
    ∧ ¬ ∃ r, checkDateNeedAdjust hw_24h 0 { noon_table with seconds := 0x25, minutes := 0x30 }
              3 0 (ready_decoder noon_table) = some r
          ∧ r.1.gpstm_needupdate = true := by
  refine ⟨rfl, ?_⟩
  rintro ⟨r, h1, h2⟩
  have e : checkDateNeedAdjust hw_24h 0 { noon_table with seconds := 0x25, minutes := 0x30 }
      3 0 (ready_decoder noon_table)
      = some ({ ready_decoder noon_table with gpstm_needupdate := false }, []) := by
    decide
  rw [e] at h1
  cases h1
  exact Bool.noConfusion h2

/-- Claim C7: in 24-hour mode and inside the guard window, `adjust_timezone`
returns an adjusted record, and whenever that record differs from
`rtc_table` in minutes, hour, day, month or year, `checkDateNeedAdjust`
issues exactly the six writes of seconds, minutes, hour, day, month and
year, in that order, each with the adjusted `gpstm_table` value (and clears
the ready flag). -/
theorem checkDateNeedAdjust_commits (hw : Ds1302) (undef : Int) (rtc_table : Table)
    (tz_bias_hour tz_bias_minute : Int) (d : Decoder)
    (h24 : hw.H12_24 = false)
    (hwin : rtc_table.seconds > 0x30 ∧ rtc_table.seconds < 0x40) :
    ∃ adjusted, adjust_timezone tz_bias_hour tz_bias_minute d.gpstm_table = some adjusted
      ∧ ((rtc_table.minutes ≠ adjusted.minutes ∨ rtc_table.hour ≠ adjusted.hour
            ∨ rtc_table.day ≠ adjusted.day ∨ rtc_table.month ≠ adjusted.month
            ∨ rtc_table.year ≠ adjusted.year) →
          checkDateNeedAdjust hw undef rtc_table tz_bias_hour tz_bias_minute d
            = some ({ d with gpstm_table := adjusted, gpstm_needupdate := false },
                    [(.DS_ADDR_SECONDS, adjusted.seconds),
                     (.DS_ADDR_MINUTES, adjusted.minutes),
                     (.DS_ADDR_HOUR, adjusted.hour),
                     (.DS_ADDR_DAY, adjusted.day),
                     (.DS_ADDR_MONTH, adjusted.month),
                     (.DS_ADDR_YEAR, adjusted.year)])) := by
  obtain ⟨adjusted, hadj, _⟩ := adjust_timezone_isSome tz_bias_hour tz_bias_minute d.gpstm_table
  refine ⟨adjusted, hadj, ?_⟩
  intro hdiff
  unfold checkDateNeedAdjust
  rw [if_pos hwin, hadj]
  simp only [h24, Bool.false_eq_true, if_false]
  rw [if_pos (Or.inr hdiff)]
  rfl

/-- With RTC seconds `0x35`, a bias of +3:00 and an RTC that equals the
adjusted record (15:00 on 15 June) except for the minutes, the six writes are
made. -/
theorem checkDateNeedAdjust_commits_witness :
    checkDateNeedAdjust hw_24h 0
        { noon_table with seconds := 0x35, minutes := 0x30, hour := 0x15 } 3 0
        (ready_decoder noon_table)
      = some ({ ready_decoder noon_table with
                  gpstm_table := { noon_table with hour := 0x15, weekday := 6 },
                  gpstm_needupdate := false },
              [(.DS_ADDR_SECONDS, 0x00), (.DS_ADDR_MINUTES, 0x00), (.DS_ADDR_HOUR, 0x15),
               (.DS_ADDR_DAY, 0x15), (.DS_ADDR_MONTH, 0x06), (.DS_ADDR_YEAR, 0x24)]) := by
  obtain ⟨adjusted, h1, h2⟩ := checkDateNeedAdjust_commits hw_24h 0
    { noon_table with seconds := 0x35, minutes := 0x30, hour := 0x15 } 3 0
    (ready_decoder noon_table) rfl (by decide)
  have e : adjust_timezone 3 0 (ready_decoder noon_table).gpstm_table
      = some { noon_table with hour := 0x15, weekday := 6 } := by decide
  rw [e] at h1
  cases h1
  exact h2 (by decide)

/-- Claim C8 (the code differs): with RTC seconds `0x31` and staged seconds
`0x00`, every other field equal and a zero bias, the seconds differ by 31,
yet `part_delta` is 1 (the expression parses as
`((rtc >> (4 - gps)) >> 4) * 10 + ((rtc & (0xF - gps)) & 0xF)`) and no write
is made.  The shift count is not negative here, so `undef` plays no part. -/
theorem part_delta_misses_31_seconds (undef : Int) :
    part_delta undef 0x31 0x00 = 1
    ∧ checkDateNeedAdjust hw_24h undef { noon_table with seconds := 0x31 } 0 0
        (ready_decoder noon_table)
      = some ({ ready_decoder noon_table with
                  gpstm_table := { noon_table with weekday := 6 },
                  gpstm_needupdate := false }, []) := by
  have e : adjust_timezone 0 0 (ready_decoder noon_table).gpstm_table
      = some { noon_table with weekday := 6 } := by decide
  have p : part_delta undef 0x31 0x00 = 1 := by
    unfold part_delta
    rw [if_pos (by decide)]
    decide
  refine ⟨p, ?_⟩
  unfold checkDateNeedAdjust
  rw [if_pos (by decide), e]
  simp only []
  have p' : part_delta undef 49 noon_table.seconds = 1 := p
  rw [p']
  decide

/-- Claim C9 (the code differs): in 12-hour mode, with the staged record
adjusted to 15:20 and the RTC hour register at `0x89` (9 AM), the conversion
reads the RTC hour instead of the staged hour: the staged hour entry and
the hour byte written to the RTC are `0x89`, not `0xA3` (3 PM). -/
theorem hour_12_taken_from_rtc (undef : Int) :
    checkDateNeedAdjust hw_12h undef
        { noon_table with seconds := 0x35, minutes := 0x10, hour := 0x89 } 3 0
        (ready_decoder { noon_table with minutes := 0x20 })
      = some ({ ready_decoder noon_table with
                  gpstm_table := { noon_table with minutes := 0x20, hour := 0x89, weekday := 6 },
                  gpstm_needupdate := false },
              [(.DS_ADDR_SECONDS, 0x00), (.DS_ADDR_MINUTES, 0x20), (.DS_ADDR_HOUR, 0x89),
               (.DS_ADDR_DAY, 0x15), (.DS_ADDR_MONTH, 0x06), (.DS_ADDR_YEAR, 0x24)]) := by
  have e : adjust_timezone 3 0 (ready_decoder { noon_table with minutes := 0x20 }).gpstm_table
      = some { noon_table with minutes := 0x20, hour := 0x15, weekday := 6 } := by decide
  unfold checkDateNeedAdjust
  rw [if_pos (by decide), e]
  simp only []
  rw [if_pos (Or.inr (Or.inl (by decide)))]
  decide

/-! ## The time field without a fraction -/

/-- The six digits of the time field, without the `.` that ends it. -/
theorem feed_time_digits (c : Nat) (t : Table) (h1 h2 m1 m2 s1 s2 : Fin 10) :
    feed ⟨.NM_ZDATIME, 0, c, t, false⟩
        [digit_char h1, digit_char h2, digit_char m1, digit_char m2,
         digit_char s1, digit_char s2]
      = ⟨.NM_ZDATIME, 6,
          [digit_char h1, digit_char h2, digit_char m1, digit_char m2,
           digit_char s1, digit_char s2].foldl (fun a b => a ^^^ b) c,
          { t with hour := 16 * h1.val + h2.val, minutes := 16 * m1.val + m2.val,
                   seconds := 16 * s1.val + s2.val }, false⟩ := by
  have e1 : ∀ x : Fin 10, ¬ (48 + x.val = 36) := fun x => by omega
  have e2 : ∀ x : Fin 10, ¬ (57 < 48 + x.val) := fun x => by omega
  have e3 : ∀ x : Fin 10, ¬ (48 + x.val = 46) := fun x => by omega
  have e4 : ∀ x y : Fin 10, (x.val * 16 % 256 + y.val) % 256 = 16 * x.val + y.val :=
    fun x y => by omega
  simp [feed, processUartData, set_zda_state, digit_char, Table.set, Table.get,
    Nat.shiftLeft_eq, e1, e2, e3, e4]

/-- A `,` at position 6 of the time field resets the decoder. -/
theorem feed_time_comma (c : Nat) (t : Table) :
    feed ⟨.NM_ZDATIME, 6, c, t, false⟩ [44] = ⟨.NM_UNKNOWN, 0, c ^^^ 44, t, false⟩ := by
  simp [feed, processUartData, set_zda_state]

/-- In state `NM_UNKNOWN` every stream without a `$` is ignored. -/
theorem feed_unknown (d : Decoder) (hs : d.zda_state = .NM_UNKNOWN) (l : List Nat)
    (hl : 36 ∉ l) : feed d l = d := by
  induction l with
  | nil => rfl
  | cons b l ih =>
    have hb : b ≠ 36 := fun h => hl (by simp [h])
    have hl' : 36 ∉ l := fun h => hl (List.mem_cons_of_mem b h)
    have step : processUartData d b = d := by
      by_cases hf : d.gpstm_needupdate = true
      · simp [processUartData, hf]
      · simp [processUartData, hf, hb, hs]
    rw [feed_cons, step, ih hl']

/-- Claim C11 as the code has it: the fraction digits are optional, the `.`
is not.  From any decoder state with the ready flag clear, a sentence whose
time field is six digits followed directly by `,` resets the decoder to
`NM_UNKNOWN` on that `,`, with hour, minutes and seconds already written to
`gpstm_table`, and whatever follows without a new `$` leaves the ready flag
clear, also after every prefix; a well-formed sentence whose time field is
`HHMMSS.` with no fraction digit (`z` with its fraction digits removed),
closed by the checksum digits of its payload, sets the ready flag. -/
theorem zda_fraction_point_required (d : Decoder) (hclear : d.gpstm_needupdate = false)
    (h1 h2 m1 m2 s1 s2 : Fin 10) (rest : List Nat) (hrest : 36 ∉ rest)
    (z : ZdaSentence) :
    feed d (zda_no_fraction h1 h2 m1 m2 s1 s2 [])
        = ⟨.NM_UNKNOWN, 0, (feed d (zda_no_fraction h1 h2 m1 m2 s1 s2 [])).zda_checksum,
            { d.gpstm_table with hour := 16 * h1.val + h2.val,
                                 minutes := 16 * m1.val + m2.val,
                                 seconds := 16 * s1.val + s2.val }, false⟩
    ∧ feed d (zda_no_fraction h1 h2 m1 m2 s1 s2 rest)
        = feed d (zda_no_fraction h1 h2 m1 m2 s1 s2 [])
    ∧ (∀ n, (feed d ((zda_no_fraction h1 h2 m1 m2 s1 s2 rest).take n)).gpstm_needupdate
              = false)
    ∧ (feed d
          (({ z with frac := [] } : ZdaSentence).bytes
            (xor_all ({ z with frac := [] } : ZdaSentence).payload / 16)
            (xor_all ({ z with frac := [] } : ZdaSentence).payload % 16))).gpstm_needupdate
        = true := by
  have e0 : feed d (zda_no_fraction h1 h2 m1 m2 s1 s2 [])
      = ⟨.NM_UNKNOWN, 0,
          [digit_char h1, digit_char h2, digit_char m1, digit_char m2, digit_char s1,
           digit_char s2].foldl (fun a b => a ^^^ b)
            ([71, 80, 90, 68, 65, 44].foldl (fun a b => a ^^^ b) 42) ^^^ 44,
          { d.gpstm_table with hour := 16 * h1.val + h2.val,
                               minutes := 16 * m1.val + m2.val,
                               seconds := 16 * s1.val + s2.val }, false⟩ := by
    have shape : zda_no_fraction h1 h2 m1 m2 s1 s2 []
        = 36 :: ([71, 80, 90, 68, 65, 44]
            ++ ([digit_char h1, digit_char h2, digit_char m1, digit_char m2, digit_char s1,
                 digit_char s2] ++ [44])) := by
      simp [zda_no_fraction]
    rw [shape, feed_cons, step_dollar d hclear, feed_append, feed_header, feed_append,
      feed_time_digits, feed_time_comma]
  have e1 : feed d (zda_no_fraction h1 h2 m1 m2 s1 s2 rest)
      = feed d (zda_no_fraction h1 h2 m1 m2 s1 s2 []) := by
    have split : zda_no_fraction h1 h2 m1 m2 s1 s2 rest
        = zda_no_fraction h1 h2 m1 m2 s1 s2 [] ++ rest := by
      simp [zda_no_fraction]
    rw [split, feed_append, feed_unknown _ (by rw [e0]) rest hrest]
  refine ⟨?_, e1, ?_, ?_⟩
  · rw [e0]
  · intro n
    apply needupdate_clear_before d _ (List.drop n (zda_no_fraction h1 h2 m1 m2 s1 s2 rest))
    rw [List.take_append_drop, e1, e0]
  · have hx : xor_all ({ z with frac := [] } : ZdaSentence).payload < 128 :=
      xor_all_lt _ (payload_lt _)
    rw [feed_sentence d hclear _ _ _ (by omega) (by omega), xor_high_nibble _ hx]
    simp

/-- The idle decoder is still idle, flag clear, after
`$GPZDA,123456,09,10,2024,00,00*43`. -/
theorem zda_fraction_point_required_witness :
    idle_decoder.gpstm_needupdate = false
    ∧ feed idle_decoder
        (zda_no_fraction 1 2 3 4 5 6
          [48, 57, 44, 49, 48, 44, 50, 48, 50, 52, 44, 48, 48, 44, 48, 48, 42, 52, 51])
      = feed idle_decoder (zda_no_fraction 1 2 3 4 5 6 []) :=
  ⟨rfl, (zda_fraction_point_required idle_decoder rfl 1 2 3 4 5 6
    [48, 57, 44, 49, 48, 44, 50, 48, 50, 52, 44, 48, 48, 44, 48, 48, 42, 52, 51] (by decide)
    sample_sentence).2.1⟩

/-- Claim C11 as stated fails: `$GPZDA,123456,09,10,2024,00,00*43` has a time
field of six digits followed directly by `,`, is otherwise well-formed and
carries the checksum `0x43` of its payload, yet the `,` after the time digits
resets the decoder and the sentence ends with the ready flag clear. -/
theorem no_fraction_sentence_rejected :
    xor_all ((no_fraction_bytes.drop 1).take 29) = 0x43
    ∧ (feed idle_decoder (no_fraction_bytes.take 14)).zda_state = .NM_UNKNOWN
    ∧ ¬ (feed idle_decoder no_fraction_bytes).gpstm_needupdate = true := by
  decide

/-! ## The calendar round trip -/

theorem ds_split2int_int2bcd (n : Nat) (h : n < 100) : ds_split2int (ds_int2bcd n) = n := by
  unfold ds_split2int ds_int2bcd
  omega

theorem and_three (n : Nat) : n &&& 3 = n % 4 := by
  simpa using Nat.and_pow_two_sub_one_eq_mod n 2

theorem shiftRight_two (n : Nat) : n >>> 2 = n / 4 := by
  simpa using Nat.shiftRight_eq_div_pow n 2

/-- The month length the loop of `set_days` computes is the calendar's. -/
theorem m_days_eq (year month : Nat) (h : month < 12) :
    (month_days.getD month 0 + (if month = 1 ∧ year &&& 3 = 0 then 1 else 0)) % 256
      = month_length year month := by
  have hb := month_days_bounds month h
  unfold month_length
  rw [and_three]
  split_ifs <;> omega

theorem month_length_bounds (year month : Nat) (h : month < 12) :
    28 ≤ month_length year month ∧ month_length year month ≤ 31 := by
  unfold month_length
  interval_cases month <;> simp [month_days]
  split_ifs <;> omega

/-- A whole year has 365 days, and 366 when it is divisible by 4. -/
theorem days_of_months_year (year : Nat) :
    days_of_months year 0 12 = 365 + (if year % 4 = 0 then 1 else 0) := by
  simp [days_of_months, month_length, month_days]
  split_ifs <;> omega

/-- Within a year the loop walks from month `k` over `n` whole months and
stops on day `d` of month `k + n`. -/
theorem set_days_loop_walk (year d : Nat) (hd1 : 1 ≤ d) :
    ∀ (n k fuel : Nat), k + n < 12 → d ≤ month_length year (k + n) → n < fuel →
      set_days_loop fuel (days_of_months year k n + d) k year = some (d, k + n, year) := by
  intro n
  induction n with
  | zero =>
    intro k fuel hk hd hf
    obtain ⟨fuel, rfl⟩ : ∃ f, fuel = f + 1 := ⟨fuel - 1, by omega⟩
    unfold set_days_loop
    simp only [m_days_eq year k (by omega), days_of_months, Nat.zero_add, Nat.add_zero] at hd ⊢
    rw [if_pos hd]
  | succ n ih =>
    intro k fuel hk hd hf
    obtain ⟨fuel, rfl⟩ : ∃ f, fuel = f + 1 := ⟨fuel - 1, by omega⟩
    have hb := month_length_bounds year k (by omega)
    unfold set_days_loop
    simp only [m_days_eq year k (by omega), days_of_months]
    rw [if_neg (by omega), if_neg (by omega)]
    have e : month_length year k + days_of_months year (k + 1) n + d - month_length year k
        = days_of_months year (k + 1) n + d := by omega
    rw [e, ih (k + 1) fuel (by omega) (by rw [show k + 1 + n = k + (n + 1) by omega]; exact hd)
      (by omega)]
    rw [show k + 1 + n = k + (n + 1) by omega]

/-- One iteration of the loop of `set_days`. -/
theorem set_days_loop_succ (fuel day month year : Nat) :
    set_days_loop (fuel + 1) day month year
      = if day ≤ (month_days.getD month 0
            + (if month = 1 ∧ year &&& 3 = 0 then 1 else 0)) % 256 then
          some (day, month, year)
        else if month + 1 = 12 then
          set_days_loop fuel
            (day - (month_days.getD month 0
              + (if month = 1 ∧ year &&& 3 = 0 then 1 else 0)) % 256) 0 ((year + 1) % 256)
        else
          set_days_loop fuel
            (day - (month_days.getD month 0
              + (if month = 1 ∧ year &&& 3 = 0 then 1 else 0)) % 256) (month + 1) year := by
  rw [set_days_loop]

/-- From month `k` the loop crosses the `n + 1` months that are left of the
year and goes on in January of the next year. -/
theorem set_days_loop_cross (year day : Nat) (hy : year < 255) (hday : 1 ≤ day) :
    ∀ (n k fuel : Nat), k + n = 11 → n < fuel →
      set_days_loop fuel (days_of_months year k (n + 1) + day) k year
        = set_days_loop (fuel - (n + 1)) day 0 (year + 1) := by
  intro n
  induction n with
  | zero =>
    intro k fuel hk hf
    obtain ⟨fuel, rfl⟩ : ∃ f, fuel = f + 1 := ⟨fuel - 1, by omega⟩
    have hb := month_length_bounds year k (by omega)
    rw [set_days_loop_succ]
    simp only [m_days_eq year k (by omega), days_of_months, Nat.add_zero]
    rw [if_neg (by omega), if_pos (by omega)]
    rw [show month_length year k + day - month_length year k = day by omega,
      show (year + 1) % 256 = year + 1 by omega]
    rfl
  | succ n ih =>
    intro k fuel hk hf
    obtain ⟨fuel, rfl⟩ : ∃ f, fuel = f + 1 := ⟨fuel - 1, by omega⟩
    have hb := month_length_bounds year k (by omega)
    rw [set_days_loop_succ, days_of_months]
    simp only [m_days_eq year k (by omega)]
    rw [if_neg (by omega), if_neg (by omega)]
    rw [show month_length year k + days_of_months year (k + 1) (n + 1) + day
          - month_length year k = days_of_months year (k + 1) (n + 1) + day by omega,
      ih (k + 1) fuel (by omega) (by omega)]
    rw [show fuel + 1 - (n + 1 + 1) = fuel - (n + 1) by omega]

/-- A date of the calendar lies within its year. -/
theorem day_of_year_le (year month d : Nat) (hm : month < 12)
    (hd : d ≤ month_length year month) :
    days_of_months year 0 month + d ≤ days_of_months year 0 12 := by
  rw [days_of_months_year]
  interval_cases month <;>
    simp [days_of_months, month_length, month_days] at hd ⊢ <;>
    split_ifs at hd ⊢ <;> omega

/-- Only 31 December is the 366th day of a leap year. -/
theorem day_of_year_366 (year month d : Nat) (hm : month < 12)
    (hd : d ≤ month_length year month)
    (h : days_of_months year 0 month + d = 366) : month = 11 ∧ d = 31 := by
  interval_cases month <;>
    simp [days_of_months, month_length, month_days] at hd h ⊢ <;>
    (try split_ifs at hd h) <;> omega

/-- The candidate year of `set_days` and the day count it starts its walk
with, for day `doy` of year `y`: either the year itself with `doy`, or the
year before with its whole length added. -/
theorem candidate_year (y doy : Nat) (hy : y < 100) (h1 : 1 ≤ doy)
    (h2 : doy ≤ days_of_months y 0 12) (hne : ¬ (y = 0 ∧ doy = 366)) :
    ((365 * y + (y + 3) / 4 + doy) / 366 = y
      ∧ (365 * y + (y + 3) / 4 + doy) % 366 + (365 * y + (y + 3) / 4 + doy) / 366
          - ((365 * y + (y + 3) / 4 + doy) / 366 + 3) / 4 = doy)
    ∨ ((365 * y + (y + 3) / 4 + doy) / 366 + 1 = y
      ∧ (365 * y + (y + 3) / 4 + doy) % 366 + (365 * y + (y + 3) / 4 + doy) / 366
          - ((365 * y + (y + 3) / 4 + doy) / 366 + 3) / 4
        = days_of_months ((365 * y + (y + 3) / 4 + doy) / 366) 0 12 + doy) := by
  rw [days_of_months_year] at h2 ⊢
  generalize hN : 365 * y + (y + 3) / 4 + doy = N
  generalize hY : N / 366 = Y
  generalize hr : N % 366 = r
  have hdm : 366 * Y + r = N := by rw [← hY, ← hr]; exact Nat.div_add_mod N 366
  have hr366 : r < 366 := by rw [← hr]; exact Nat.mod_lt N (by decide)
  have hcases : Y = y ∨ Y + 1 = y := by
    split_ifs at h2 <;> omega
  rcases hcases with h | h
  · left
    subst h
    split_ifs at h2 <;> omega
  · right
    subst h
    split_ifs at h2 ⊢ <;> omega

/-- The days of the first `n` months of a year that is not a leap year (year
1 stands for any of them). -/
theorem days_of_months_le (n : Nat) (h : n ≤ 11) : days_of_months 1 0 n ≤ 334 := by
  interval_cases n <;> simp [days_of_months, month_length, month_days]

/-- The loop of `get_days` adds the days of the elapsed months, taken from
`month_days`, and does not wrap. -/
theorem get_days_months (n r : Nat) (hn : n ≤ 11) (hr : r ≤ 65000) :
    (List.range n).foldl (fun r m => (r + month_days.getD m 0) % 65536) r
      = r + days_of_months 1 0 n := by
  interval_cases n <;>
    simp [List.range_succ, month_days, days_of_months, month_length] <;> omega

/-- The calendar's first `n` months hold the leap day from March on. -/
theorem days_of_months_leap (y n : Nat) (hn : n ≤ 11) :
    days_of_months y 0 n
      = days_of_months 1 0 n + (if 1 < n ∧ y % 4 = 0 then 1 else 0) := by
  interval_cases n <;>
    simp [days_of_months, month_length, month_days] <;> split_ifs <;> omega

/-- The day number `get_days` computes for a date of the calendar, without
any wrap of the 16-bit accumulator: 365 days per elapsed year, one more per
elapsed leap year, the days of the elapsed months and the day of the month. -/
theorem get_days_eq (t : Table) (y m d : Nat) (hy : y < 100) (hm1 : 1 ≤ m) (hm2 : m ≤ 12)
    (hd : d ≤ 31) (hty : t.year = ds_int2bcd y) (htm : t.month = ds_int2bcd m)
    (htd : t.day = ds_int2bcd d) :
    get_days t = 365 * y + (y + 3) / 4 + days_of_months y 0 (m - 1) + d := by
  have hc := days_of_months_le (m - 1) (by omega)
  unfold get_days
  rw [hty, htm, htd, ds_split2int_int2bcd y hy, ds_split2int_int2bcd m (by omega),
    ds_split2int_int2bcd d (by omega)]
  have e1 : y % 256 = y := by omega
  have e2 : (m + 255) % 256 = m - 1 := by omega
  have e3 : (y * 365 + y / 4) % 65536 = y * 365 + y / 4 := Nat.mod_eq_of_lt (by omega)
  have e4 : (y * 365 + y / 4 + 1) % 65536 = y * 365 + y / 4 + 1 :=
    Nat.mod_eq_of_lt (by omega)
  simp only [and_three, shiftRight_two, e1, e2, e3, e4]
  rw [days_of_months_leap y (m - 1) (by omega)]
  by_cases hl : y % 4 ≠ 0 ∨ m - 1 > 1
  · rw [if_pos hl, get_days_months (m - 1) _ (by omega) (by omega),
      Nat.mod_eq_of_lt (by omega)]
    split_ifs <;> omega
  · rw [if_neg hl, get_days_months (m - 1) _ (by omega) (by omega),
      Nat.mod_eq_of_lt (by omega)]
    split_ifs <;> omega

theorem days_of_months_ge (y n : Nat) (hn : n ≤ 11) : n ≤ days_of_months y 0 n := by
  interval_cases n <;>
    simp [days_of_months, month_length, month_days] <;> omega

/-- The function `set_days` in terms of its loop, for a day number that does
not wrap: the candidate year is `days / 366`, the elapsed leap years are
`(year + 3) / 4`, and the loop starts from the remainder plus the candidate
year minus its elapsed leap years. -/
theorem set_days_of_loop (days : Nat) (t : Table) (d' m' y' : Nat) (hdays : days < 65532)
    (hloop : set_days_loop
        (days % 366 + days / 366 - (days / 366 + 3) / 4 + 1)
        (days % 366 + days / 366 - (days / 366 + 3) / 4) 0 (days / 366)
      = some (d', m', y')) :
    set_days days t
      = some { t with day := ds_int2bcd (d' % 256), month := ds_int2bcd ((m' + 1) % 256),
                      year := ds_int2bcd y', weekday := (days + 4) % 7 + 1 } := by
  unfold set_days
  simp only [and_three, shiftRight_two]
  have e1 : days / 366 % 256 = days / 366 := by omega
  have e2 : (days / 366 / 4 + (if days / 366 % 4 ≠ 0 then 1 else 0)) % 256
      = (days / 366 + 3) / 4 := by
    split_ifs <;> omega
  have e3 : (days % 366 + days / 366 - (days / 366 + 3) / 4) % 65536
      = days % 366 + days / 366 - (days / 366 + 3) / 4 := by omega
  have e4 : (days + 4) % 65536 = days + 4 := by omega
  rw [e1, e2, e3, e4, hloop]

/-- The loop of `set_days` on the day number of a date of the calendar other
than 31 December of year 00 stops on that date. -/
theorem set_days_loop_date (y m0 d : Nat) (hy : y < 100) (hm : m0 < 12) (hd1 : 1 ≤ d)
    (hd2 : d ≤ month_length y m0) (hne : ¬ (y = 0 ∧ m0 = 11 ∧ d = 31)) :
    set_days_loop
        ((365 * y + (y + 3) / 4 + (days_of_months y 0 m0 + d)) % 366
          + (365 * y + (y + 3) / 4 + (days_of_months y 0 m0 + d)) / 366
          - ((365 * y + (y + 3) / 4 + (days_of_months y 0 m0 + d)) / 366 + 3) / 4 + 1)
        ((365 * y + (y + 3) / 4 + (days_of_months y 0 m0 + d)) % 366
          + (365 * y + (y + 3) / 4 + (days_of_months y 0 m0 + d)) / 366
          - ((365 * y + (y + 3) / 4 + (days_of_months y 0 m0 + d)) / 366 + 3) / 4)
        0 ((365 * y + (y + 3) / 4 + (days_of_months y 0 m0 + d)) / 366)
      = some (d, m0, y) := by
  have hle := day_of_year_le y m0 d hm hd2
  have hge := days_of_months_ge y m0 (by omega)
  have hne' : ¬ (y = 0 ∧ days_of_months y 0 m0 + d = 366) := by
    rintro ⟨h0, h366⟩
    exact hne ⟨h0, day_of_year_366 y m0 d hm hd2 h366⟩
  have walk := set_days_loop_walk y d hd1 m0 0
  rw [Nat.zero_add] at walk
  have hc := candidate_year y (days_of_months y 0 m0 + d) hy (by omega) hle hne'
  generalize (365 * y + (y + 3) / 4 + (days_of_months y 0 m0 + d)) / 366 = Y at hc ⊢
  rcases hc with ⟨hY, hday⟩ | ⟨hY, hday⟩
  · rw [hday, hY]
    exact walk _ hm hd2 (by omega)
  · rw [hday]
    have hyear := days_of_months_year Y
    have cross := set_days_loop_cross Y (days_of_months y 0 m0 + d) (by omega) (by omega)
      11 0 (days_of_months Y 0 12 + (days_of_months y 0 m0 + d) + 1) (by omega) (by omega)
    rw [cross, hY]
    exact walk _ hm hd2 (by split_ifs at hyear <;> omega)

/-- The month lengths used to say which dates are valid, spelled out: the
usual calendar, with 29 days in February exactly when the year is divisible
by 4. -/
theorem month_length_calendar (y : Nat) :
    (List.range 12).map (month_length y)
      = [31, if y % 4 = 0 then 29 else 28, 31, 30, 31, 30, 31, 31, 30, 31, 30, 31] := by
  by_cases h : y % 4 = 0 <;> simp [month_length, month_days, List.range_succ, h]

/-- Claim C12: for every date `(y, m, d)` of the calendar with `y` in 0..99
other than 31 December of year 00, staged in BCD, `get_days` returns the day
number `365 y + (y + 3) / 4 + (days of the elapsed months) + d` without
wrapping its 16 bits; the candidate year `days / 366` of `set_days` is `y` or
`y - 1`; the remainder plus the candidate year minus its elapsed leap years
is the day of the year `y` counted from the candidate year (with the whole
length of year `y - 1` added when that is the candidate); the month walk
stops on day `d` of month `m` of year `y`; and `set_days`, called with the
day number `get_days()` of the staged table `t`, writes the BCD of `(y, m, d)`
into the year, month and day entries whatever those entries held before
(`u` is the table at the time of the call; in `set_days(get_days())` it is
`t` itself), leaving seconds, minutes and hour alone. -/
theorem set_days_get_days_round_trip (t u : Table) (y m d : Nat) (hy : y < 100)
    (hm : 1 ≤ m ∧ m ≤ 12) (hd : 1 ≤ d ∧ d ≤ month_length y (m - 1))
    (hne : ¬ (y = 0 ∧ m = 12 ∧ d = 31))
    (hty : t.year = ds_int2bcd y) (htm : t.month = ds_int2bcd m)
    (htd : t.day = ds_int2bcd d) :
    get_days t = 365 * y + (y + 3) / 4 + (days_of_months y 0 (m - 1) + d)
    ∧ 365 * y + (y + 3) / 4 + (days_of_months y 0 (m - 1) + d) < 65536
    ∧ (get_days t / 366 = y ∨ get_days t / 366 + 1 = y)
    ∧ get_days t % 366 + get_days t / 366 - (get_days t / 366 + 3) / 4
        = (if get_days t / 366 = y then 0 else days_of_months (get_days t / 366) 0 12)
          + (days_of_months y 0 (m - 1) + d)
    ∧ set_days_loop
          (get_days t % 366 + get_days t / 366 - (get_days t / 366 + 3) / 4 + 1)
          (get_days t % 366 + get_days t / 366 - (get_days t / 366 + 3) / 4)
          0 (get_days t / 366)
        = some (d, m - 1, y)
    ∧ set_days (get_days t) u
        = some { seconds := u.seconds, minutes := u.minutes, hour := u.hour,
                 day := ds_int2bcd d, month := ds_int2bcd m,
                 weekday := (get_days t + 4) % 7 + 1, year := ds_int2bcd y }
    ∧ set_days (get_days t) t
        = some { t with weekday := (get_days t + 4) % 7 + 1 } := by
  obtain ⟨hm1, hm2⟩ := hm
  obtain ⟨hd1, hd2⟩ := hd
  have hml := month_length_bounds y (m - 1) (by omega)
  have hN : get_days t = 365 * y + (y + 3) / 4 + (days_of_months y 0 (m - 1) + d) := by
    rw [get_days_eq t y m d hy hm1 hm2 (by omega) hty htm htd]
    omega
  have hle := day_of_year_le y (m - 1) d (by omega) hd2
  have hyl := days_of_months_year y
  have hne0 : ¬ (y = 0 ∧ m - 1 = 11 ∧ d = 31) := by
    rintro ⟨a, b, c⟩
    exact hne ⟨a, by omega, c⟩
  have hne' : ¬ (y = 0 ∧ days_of_months y 0 (m - 1) + d = 366) := by
    rintro ⟨h0, h366⟩
    exact hne0 ⟨h0, day_of_year_366 y (m - 1) d (by omega) hd2 h366⟩
  have hc := candidate_year y (days_of_months y 0 (m - 1) + d) hy (by omega) hle hne'
  have hloop := set_days_loop_date y (m - 1) d hy (by omega) hd1 hd2 hne0
  have hsmall : 365 * y + (y + 3) / 4 + (days_of_months y 0 (m - 1) + d) < 65532 := by
    split_ifs at hyl <;> omega
  rw [← hN] at hc hloop hsmall
  refine ⟨hN, by omega, ?_, ?_, hloop, ?_, ?_⟩
  · rcases hc with ⟨h, _⟩ | ⟨h, _⟩
    · exact Or.inl h
    · exact Or.inr h
  · rcases hc with ⟨h, e⟩ | ⟨h, e⟩
    · rw [if_pos h, e, Nat.zero_add]
    · rw [if_neg (by omega), e]
  · rw [set_days_of_loop (get_days t) u d (m - 1) y hsmall hloop,
      show d % 256 = d by omega, show (m - 1 + 1) % 256 = m by omega]
  · rw [set_days_of_loop (get_days t) t d (m - 1) y hsmall hloop,
      show d % 256 = d by omega, show (m - 1 + 1) % 256 = m by omega, ← hty, ← htm, ← htd]

/-- The day number of the leap day 29 February of year 24, handed to
`set_days` while the table holds 15 June of year 24, overwrites that date with
29 February of year 24. -/
theorem set_days_get_days_round_trip_witness :
    set_days (get_days leap_day_table) noon_table
      = some { seconds := noon_table.seconds, minutes := noon_table.minutes,
               hour := noon_table.hour, day := ds_int2bcd 29, month := ds_int2bcd 2,
               weekday := (get_days leap_day_table + 4) % 7 + 1, year := ds_int2bcd 24 } :=
  (set_days_get_days_round_trip leap_day_table noon_table 24 2 29 (by decide) (by decide)
    (by decide) (by decide) rfl rfl rfl).2.2.2.2.2.1

end StcDiyClock
